import Mathlib

/-!
Verification development for the xview extraction engine
(`modules/video.py`, `modules/client.py`, `modules/consts.py`).

The Python code is shallowly embedded: pure accessors become Lean
functions over the raw page content, the mutable `Video` object becomes
an explicit state record, exceptions become `Except`, and the `re`
regular-expression patterns from `consts.py` are transcribed into a
small token language executed by a backtracking matcher with Python
`re` semantics (leftmost search position, greedy/lazy quantifiers with
backtracking, ordered alternation, numbered capture groups).
-/

namespace XView

/-! ## Models of Python string primitives

These model the CPython `str`/`int`/`float` builtins used by the
source, restricted to ASCII whitespace/digits (the source only feeds
them ASCII regex captures).
-/

/-- Python `\s` / `str.strip` whitespace class (ASCII subset). -/
def pyIsSpace (c : Char) : Bool :=
  c = ' ' ∨ c = '\t' ∨ c = '\n' ∨ c = '\r' ∨ c = '\x0b' ∨ c = '\x0c'

/-- ASCII decimal digit. -/
def pyIsDigitChar (c : Char) : Bool :=
  '0' ≤ c ∧ c ≤ '9'

/-- Python `str.strip()` on a character list. -/
def pyStripList (cs : List Char) : List Char :=
  ((cs.dropWhile pyIsSpace).reverse.dropWhile pyIsSpace).reverse

/-- Python `str.strip()`. -/
def pyStrip (s : String) : String :=
  String.mk (pyStripList s.data)

/-- Python `str.isdigit()` (ASCII digits; nonempty and all digits). -/
def pyIsDigitStr (s : String) : Bool :=
  ¬ s.data.isEmpty ∧ s.data.all pyIsDigitChar

/-- Numeric value of a nonempty ASCII digit list. -/
def digitsToNat (cs : List Char) : Nat :=
  cs.foldl (fun acc c => 10 * acc + (c.toNat - 48)) 0

/-- Python exception kinds relevant to the embedded code. -/
inductive PyErr where
  | valueError : PyErr
  | typeError : PyErr
  deriving Repr, DecidableEq

/-- Digit core of a Python `int()` literal: digits optionally separated
by single underscores (`1_000`). Returns the digits with underscores
removed, or `none` if the shape is invalid. -/
def pyIntDigits : List Char → Option (List Char)
  | [] => none
  | [c] => if pyIsDigitChar c then some [c] else none
  | c :: '_' :: cs' =>
    if pyIsDigitChar c then (pyIntDigits cs').map (fun ds => c :: ds) else none
  | c :: cs =>
    if pyIsDigitChar c then (pyIntDigits cs).map (fun ds => c :: ds) else none

/-- Python `int(s)` on a string: strips whitespace, accepts an optional
sign and underscore-grouped ASCII digits; raises `ValueError` otherwise. -/
def pyIntE (s : String) : Except PyErr Int :=
  match pyStripList s.data with
  | '+' :: rest =>
    match pyIntDigits rest with
    | some ds => .ok (Int.ofNat (digitsToNat ds))
    | none => .error .valueError
  | '-' :: rest =>
    match pyIntDigits rest with
    | some ds => .ok (-(Int.ofNat (digitsToNat ds)))
    | none => .error .valueError
  | rest =>
    match pyIntDigits rest with
    | some ds => .ok (Int.ofNat (digitsToNat ds))
    | none => .error .valueError

/-- Python `int(s)` with `ValueError` mapped to `none`
(for `try: int(..) except ValueError` sites). -/
def pyIntOpt (s : String) : Option Int :=
  match pyIntE s with
  | .ok n => some n
  | .error _ => none

/-- Python `s.replace("p", "")`: removes every occurrence of `p`
(single-character needle, so a simple filter). -/
def pyRemoveChar (needle : Char) (s : String) : String :=
  String.mk (s.data.filter (fun c => c ≠ needle))

/-- Python `str.startswith(prefix)`. -/
def pyStartsWith (s pre : String) : Bool :=
  pre.data.isPrefixOf s.data

/-- Whether `pat` occurs as a contiguous substring of `s`
(Python `pat in s`). -/
def listContainsSub (pat : List Char) : List Char → Bool
  | [] => pat.isEmpty
  | c :: cs => pat.isPrefixOf (c :: cs) ∨ listContainsSub pat cs

/-- Python `pat in s` for strings. -/
def pyContains (s pat : String) : Bool :=
  listContainsSub pat.data s.data

/-- Python `str.lower()` (ASCII case folding; the URLs and format
tokens handled by the source are ASCII). -/
def pyLower (s : String) : String :=
  String.mk (s.data.map Char.toLower)

/-- Python `html.unescape` over a character list, restricted to the
named/numeric character references actually produced by the embedded
pages (the full CPython table has thousands of names; every input
considered in this development uses only these). Text without an
applicable `&...;` reference passes through unchanged. -/
def pyUnescapeList : List Char → List Char
  | [] => []
  | '&' :: 'a' :: 'm' :: 'p' :: ';' :: rest => '&' :: pyUnescapeList rest
  | '&' :: 'l' :: 't' :: ';' :: rest => '<' :: pyUnescapeList rest
  | '&' :: 'g' :: 't' :: ';' :: rest => '>' :: pyUnescapeList rest
  | '&' :: 'q' :: 'u' :: 'o' :: 't' :: ';' :: rest => '"' :: pyUnescapeList rest
  | '&' :: 'a' :: 'p' :: 'o' :: 's' :: ';' :: rest => '\'' :: pyUnescapeList rest
  | '&' :: '#' :: '3' :: '9' :: ';' :: rest => '\'' :: pyUnescapeList rest
  | '&' :: '#' :: '3' :: '4' :: ';' :: rest => '"' :: pyUnescapeList rest
  | '&' :: '#' :: '3' :: '8' :: ';' :: rest => '&' :: pyUnescapeList rest
  | c :: cs => c :: pyUnescapeList cs

/-- Python `html.unescape`. -/
def pyUnescape (s : String) : String :=
  String.mk (pyUnescapeList s.data)

/-! ## A small regex engine with Python `re` semantics

Each `re.compile(...)` constant of `consts.py` is transcribed into a
list of tokens. The matcher follows CPython `re`: a search tries each
start position left to right; at a position, tokens are matched in
sequence with backtracking; greedy quantifiers try the longer
extension first, lazy ones the shorter; alternation tries branches in
written order; a capture group records the text consumed by its body
on the successful path (most recent capture wins).
-/

/-- One token of a transcribed pattern. -/
inductive RTok where
  /-- literal text (`abc`) -/
  | lit : String → RTok
  /-- single character from a class (`[...]`, `\d`, `.`) -/
  | cls : (Char → Bool) → RTok
  /-- optional class character, greedy (`[...]?`) -/
  | opt : (Char → Bool) → RTok
  /-- zero or more class characters, greedy (`[...]*`) -/
  | star : (Char → Bool) → RTok
  /-- one or more class characters, greedy (`[...]+`) -/
  | plus : (Char → Bool) → RTok
  /-- zero or more class characters, lazy (`.*?`) -/
  | starLazy : (Char → Bool) → RTok
  /-- ordered alternation of branches (`(?:a|b|c)`) -/
  | alt : List (List RTok) → RTok
  /-- numbered capture group (`(...)`) -/
  | grp : Nat → List RTok → RTok
  /-- end-of-input anchor (`$`) -/
  | endAnchor : RTok
  /-- internal: close capture group `n` opened when the remaining
  input was `atOpen` (never written in a pattern) -/
  | grpClose : Nat → List Char → RTok

/-- Character comparison, optionally case-insensitive
(`re.IGNORECASE`). -/
def ceq (ci : Bool) (a b : Char) : Bool :=
  if ci then a.toLower = b.toLower else a = b

/-- Consume a literal from the head of the input. -/
def dropLit (ci : Bool) : List Char → List Char → Option (List Char)
  | [], s => some s
  | _ :: _, [] => none
  | l :: ls, c :: cs => if ceq ci l c then dropLit ci ls cs else none

/-- Backtracking matcher. `matchToks ci fuel toks s caps k` matches
`toks` against a prefix of `s` and passes the remaining input and the
accumulated captures to the continuation `k`; `none` propagates
failure back into earlier choice points. `fuel` bounds recursion depth
and is sized generously by the drivers. -/
def matchToks (ci : Bool) :
    Nat → List RTok → List Char → List (Nat × String) →
    (List Char → List (Nat × String) → Option (List (Nat × String) × Nat)) →
    Option (List (Nat × String) × Nat)
  | 0, _, _, _, _ => none
  | _ + 1, [], s, caps, k => k s caps
  | fuel + 1, .lit l :: ts, s, caps, k =>
    match dropLit ci l.data s with
    | some s' => matchToks ci fuel ts s' caps k
    | none => none
  | fuel + 1, .cls p :: ts, s, caps, k =>
    match s with
    | c :: s' => if p c then matchToks ci fuel ts s' caps k else none
    | [] => none
  | fuel + 1, .opt p :: ts, s, caps, k =>
    (match s with
      | c :: s' => if p c then matchToks ci fuel ts s' caps k else none
      | [] => none).orElse
      (fun _ => matchToks ci fuel ts s caps k)
  | fuel + 1, .star p :: ts, s, caps, k =>
    (match s with
      | c :: s' => if p c then matchToks ci fuel (.star p :: ts) s' caps k else none
      | [] => none).orElse
      (fun _ => matchToks ci fuel ts s caps k)
  | fuel + 1, .plus p :: ts, s, caps, k =>
    matchToks ci fuel (.cls p :: .star p :: ts) s caps k
  | fuel + 1, .starLazy p :: ts, s, caps, k =>
    (matchToks ci fuel ts s caps k).orElse
      (fun _ =>
        match s with
        | c :: s' => if p c then matchToks ci fuel (.starLazy p :: ts) s' caps k else none
        | [] => none)
  | _ + 1, .alt [] :: _, _, _, _ => none
  | fuel + 1, .alt (b :: bs) :: ts, s, caps, k =>
    (matchToks ci fuel (b ++ ts) s caps k).orElse
      (fun _ => matchToks ci fuel (.alt bs :: ts) s caps k)
  | fuel + 1, .grp n inner :: ts, s, caps, k =>
    matchToks ci fuel (inner ++ (.grpClose n s :: ts)) s caps k
  | fuel + 1, .grpClose n atOpen :: ts, s, caps, k =>
    matchToks ci fuel ts s
      ((n, String.mk (atOpen.take (atOpen.length - s.length))) :: caps) k
  | fuel + 1, .endAnchor :: ts, s, caps, k =>
    if s.isEmpty then matchToks ci fuel ts s caps k else none

/-- A match: captures keyed by group number (most recent capture first,
as `match.group` returns the last successful capture of a group) and
the number of characters consumed. -/
structure RMatch where
  groups : List (Nat × String)
  matchedLen : Nat
  deriving Repr, DecidableEq

/-- Depth bound for the matcher on input `s`. Every recursive call of
`matchToks` decreases the pair (remaining characters, token weight)
lexicographically and the token weight never grows along a path, so
the depth is at most (|s| + 2) · W for the initial pattern weight W;
256 exceeds the weight of every pattern transcribed below. -/
def rFuel (s : List Char) : Nat :=
  (s.length + 2) * 256

/-- Anchored match at the start of `s` (Python `re.match` position 0,
or one candidate position of `re.search`). -/
def reMatchAt (ci : Bool) (toks : List RTok) (s : List Char) : Option RMatch :=
  matchToks ci (rFuel s) toks s []
    (fun s' caps => some (caps, s.length - s'.length)) |>.map
    (fun r => { groups := r.1, matchedLen := r.2 })

/-- Python `re.search`: first position (left to right) with a match. -/
def reSearchList (ci : Bool) (toks : List RTok) : List Char → Option RMatch
  | [] => reMatchAt ci toks []
  | c :: cs =>
    match reMatchAt ci toks (c :: cs) with
    | some m => some m
    | none => reSearchList ci toks cs

/-- Python `re.finditer`: repeated non-overlapping leftmost matches;
after a match the scan resumes past its end (advancing at least one
character, as `re` does for empty matches). -/
def reFindIterList (ci : Bool) (toks : List RTok) (fuel : Nat) (s : List Char) :
    List RMatch :=
  match fuel with
  | 0 => []
  | fuel + 1 =>
    match reMatchAt ci toks s with
    | some m =>
      m :: reFindIterList ci toks fuel (s.drop (max m.matchedLen 1))
    | none =>
      match s with
      | [] => []
      | _ :: cs => reFindIterList ci toks fuel cs

/-- A compiled pattern: token list plus its `re.IGNORECASE` flag. -/
structure RPat where
  toks : List RTok
  ci : Bool

/-- `pattern.search(s)`. -/
def rSearch (p : RPat) (s : String) : Option RMatch :=
  reSearchList p.ci p.toks s.data

/-- `pattern.search(s)` returning capture group `n`. -/
def rSearchGrp (p : RPat) (n : Nat) (s : String) : Option String :=
  (rSearch p s).bind (fun m => (m.groups.find? (fun g => g.1 = n)).map (·.2))

/-- `pattern.finditer(s)`. -/
def rFindIter (p : RPat) (s : String) : List RMatch :=
  reFindIterList p.ci p.toks (s.data.length + 1) s.data

/-- `pattern.findall(s)` for a single-group pattern: the list of group-1
captures of the non-overlapping matches. -/
def rFindAllGrp1 (p : RPat) (s : String) : List String :=
  (rFindIter p s).filterMap
    (fun m => (m.groups.find? (fun g => g.1 = 1)).map (·.2))

/-! ### Character classes used by the transcribed patterns -/

/-- `[^"']` -/
def notQuote (c : Char) : Bool := c ≠ '"' ∧ c ≠ '\''

/-- `[^"'/]` -/
def notQuoteSlash (c : Char) : Bool := c ≠ '"' ∧ c ≠ '\'' ∧ c ≠ '/'

/-- `["']` -/
def isQuote (c : Char) : Bool := c = '"' ∨ c = '\''

/-- `[^>]` -/
def notGt (c : Char) : Bool := c ≠ '>'

/-- `[^<]` -/
def notLt (c : Char) : Bool := c ≠ '<'

/-- `[^"'<>\s]` -/
def urlChar (c : Char) : Bool :=
  c ≠ '"' ∧ c ≠ '\'' ∧ c ≠ '<' ∧ c ≠ '>' ∧ ¬ pyIsSpace c

/-- `[\d,]` -/
def digitComma (c : Char) : Bool := pyIsDigitChar c ∨ c = ','

/-- `[\d.]` -/
def digitDot (c : Char) : Bool := pyIsDigitChar c ∨ c = '.'

/-- `\D` -/
def nonDigit (c : Char) : Bool := ¬ pyIsDigitChar c

/-- `.` with `re.DOTALL` -/
def anyChar (_ : Char) : Bool := true

/-- `\s` -/
def wsChar (c : Char) : Bool := pyIsSpace c

/-- `[:=]` -/
def colonEq (c : Char) : Bool := c = ':' ∨ c = '='

/-- `[:\s：]` (colon, whitespace, fullwidth colon) -/
def colonWsCn (c : Char) : Bool := c = ':' ∨ pyIsSpace c ∨ c = '：'

/-- character class of slash and dash -/
def slashDash (c : Char) : Bool := c = '/' ∨ c = '-'

/-- `/` as a one-character class (for `/?`) -/
def slashChar (c : Char) : Bool := c = '/'

/-- a single letter under `re.IGNORECASE` -/
def charCI (t : Char) (c : Char) : Bool := c.toLower = t

/-! ### The compiled patterns of `consts.py` (and the inline ISO-8601
duration pattern of `video.py`), transcribed token by token. -/

/-- `re.compile(r"/video/(\d+)")` -/
def REGEX_VIDEO_ID : RPat :=
  { toks := [.lit "/video/", .grp 1 [.plus pyIsDigitChar]], ci := false }

/-- `re.compile` of: `video`, class of slash and dash, `(\d+)` -/
def REGEX_VIDEO_ID_ALT : RPat :=
  { toks := [.lit "video", .cls slashDash, .grp 1 [.plus pyIsDigitChar]],
    ci := false }

/-- `re.compile(r'<title>([^<]+)</title>', re.IGNORECASE)` -/
def REGEX_VIDEO_TITLE : RPat :=
  { toks := [.lit "<title>", .grp 1 [.plus notLt], .lit "</title>"], ci := true }

/-- `re.compile(r'<meta\s+property=["\']og:title["\']\s+content=["\']([^"\']+)["\']', re.IGNORECASE)` -/
def REGEX_VIDEO_TITLE_META : RPat :=
  { toks := [.lit "<meta", .plus wsChar, .lit "property=", .cls isQuote,
      .lit "og:title", .cls isQuote, .plus wsChar, .lit "content=",
      .cls isQuote, .grp 1 [.plus notQuote], .cls isQuote], ci := true }

/-- `re.compile(r'<meta\s+property=["\']video:duration["\']\s+content=["\'](\d+)["\']', re.IGNORECASE)` -/
def REGEX_VIDEO_DURATION : RPat :=
  { toks := [.lit "<meta", .plus wsChar, .lit "property=", .cls isQuote,
      .lit "video:duration", .cls isQuote, .plus wsChar, .lit "content=",
      .cls isQuote, .grp 1 [.plus pyIsDigitChar], .cls isQuote], ci := true }

/-- `re.compile(r'duration["\']?\s*[:=]\s*["\']?(\d+)', re.IGNORECASE)` -/
def REGEX_VIDEO_DURATION_ALT : RPat :=
  { toks := [.lit "duration", .opt isQuote, .star wsChar, .cls colonEq,
      .star wsChar, .opt isQuote, .grp 1 [.plus pyIsDigitChar]], ci := true }

/-- `re.compile(r'<source\s+src=["\']([^"\']+)["\']', re.IGNORECASE)` -/
def REGEX_VIDEO_SOURCE : RPat :=
  { toks := [.lit "<source", .plus wsChar, .lit "src=", .cls isQuote,
      .grp 1 [.plus notQuote], .cls isQuote], ci := true }

/-- `re.compile(r'(https?://[^"\'<>\s]+\.mp4[^"\'<>\s]*)', re.IGNORECASE)` -/
def REGEX_VIDEO_SOURCE_MP4 : RPat :=
  { toks := [.grp 1 [.lit "http", .opt (charCI 's'), .lit "://",
      .plus urlChar, .lit ".mp4", .star urlChar]], ci := true }

/-- `re.compile(r'(https?://[^"\'<>\s]+\.m3u8[^"\'<>\s]*)', re.IGNORECASE)` -/
def REGEX_VIDEO_SOURCE_M3U8 : RPat :=
  { toks := [.grp 1 [.lit "http", .opt (charCI 's'), .lit "://",
      .plus urlChar, .lit ".m3u8", .star urlChar]], ci := true }

/-- `re.compile(r'(?:source|src|video_url|videoUrl|file)["\']?\s*[:=]\s*["\']([^"\']+\.(mp4|m3u8)[^"\']*)["\']', re.IGNORECASE)` -/
def REGEX_VIDEO_SOURCE_JS : RPat :=
  { toks := [.alt [[.lit "source"], [.lit "src"], [.lit "video_url"],
        [.lit "videoUrl"], [.lit "file"]],
      .opt isQuote, .star wsChar, .cls colonEq, .star wsChar, .cls isQuote,
      .grp 1 [.plus notQuote, .lit ".",
        .grp 2 [.alt [[.lit "mp4"], [.lit "m3u8"]]], .star notQuote],
      .cls isQuote], ci := true }

/-- `re.compile(r'(\d{3,4})p', re.IGNORECASE)` -/
def REGEX_VIDEO_QUALITY : RPat :=
  { toks := [.grp 1 [.cls pyIsDigitChar, .cls pyIsDigitChar,
      .cls pyIsDigitChar, .opt pyIsDigitChar], .lit "p"], ci := true }

/-- `re.compile(r'(?:views?|播放)["\']?\s*[:=]?\s*["\']?([\d,]+)', re.IGNORECASE)` -/
def REGEX_VIDEO_VIEWS : RPat :=
  { toks := [.alt [[.lit "view", .opt (charCI 's')], [.lit "播放"]],
      .opt isQuote, .star wsChar, .opt colonEq, .star wsChar, .opt isQuote,
      .grp 1 [.plus digitComma]], ci := true }

/-- `re.compile(r'(?:rating|评分)["\']?\s*[:=]?\s*["\']?([\d.]+)', re.IGNORECASE)` -/
def REGEX_VIDEO_RATING : RPat :=
  { toks := [.alt [[.lit "rating"], [.lit "评分"]],
      .opt isQuote, .star wsChar, .opt colonEq, .star wsChar, .opt isQuote,
      .grp 1 [.plus digitDot]], ci := true }

/-- `re.compile(r'(?:likes?|喜欢)["\']?\s*[:=]?\s*["\']?([\d,]+)', re.IGNORECASE)` -/
def REGEX_VIDEO_LIKES : RPat :=
  { toks := [.alt [[.lit "like", .opt (charCI 's')], [.lit "喜欢"]],
      .opt isQuote, .star wsChar, .opt colonEq, .star wsChar, .opt isQuote,
      .grp 1 [.plus digitComma]], ci := true }

/-- `re.compile(r'<script[^>]+type=["\']application/ld\+json["\'][^>]*>(.*?)</script>', re.IGNORECASE | re.DOTALL)` -/
def REGEX_JSON_LD : RPat :=
  { toks := [.lit "<script", .plus notGt, .lit "type=", .cls isQuote,
      .lit "application/ld+json", .cls isQuote, .star notGt, .lit ">",
      .grp 1 [.starLazy anyChar], .lit "</script>"], ci := true }

/-- Body of `_make_profile_regex(label)`:
`<div[^>]*class=["\']label["\'][^>]*>\s*LABEL[:\s：]*</div>\s*<div[^>]*class=["\']data["\'][^>]*>\s*([^<]+?)\s*</div>`
with `re.IGNORECASE | re.DOTALL`; `labelAlt` is the transcribed
`LABEL` alternation. -/
def makeProfileToks (labelAlt : List (List RTok)) : List RTok :=
  [.lit "<div", .star notGt, .lit "class=", .cls isQuote, .lit "label",
    .cls isQuote, .star notGt, .lit ">", .star wsChar, .alt labelAlt,
    .star colonWsCn, .lit "</div>", .star wsChar,
    .lit "<div", .star notGt, .lit "class=", .cls isQuote, .lit "data",
    .cls isQuote, .star notGt, .lit ">", .star wsChar,
    .grp 1 [.cls notLt, .starLazy notLt], .star wsChar, .lit "</div>"]

/-- `REGEX_PROFILE_FOLLOWERS = _make_profile_regex(r'(?:Followers|关注者)')` -/
def REGEX_PROFILE_FOLLOWERS : RPat :=
  { toks := makeProfileToks [[.lit "Followers"], [.lit "关注者"]], ci := true }

/-- `re.compile(r'(?:Followers|关注者)[:\s：]*</div>\s*<div[^>]*>\s*([\d,]+)', re.IGNORECASE)` -/
def REGEX_PROFILE_FOLLOWERS_ALT : RPat :=
  { toks := [.alt [[.lit "Followers"], [.lit "关注者"]], .star colonWsCn,
      .lit "</div>", .star wsChar, .lit "<div", .star notGt, .lit ">",
      .star wsChar, .grp 1 [.plus digitComma]], ci := true }

/-- `re.compile(r'(?:follower_count|num_followers)["\']?\s*[:=]\s*["\']?([\d,]+)', re.IGNORECASE)` -/
def REGEX_PROFILE_FOLLOWERS_DATA : RPat :=
  { toks := [.alt [[.lit "follower_count"], [.lit "num_followers"]],
      .opt isQuote, .star wsChar, .cls colonEq, .star wsChar, .opt isQuote,
      .grp 1 [.plus digitComma]], ci := true }

/-- `REGEX_PROFILE_AGE = _make_profile_regex(r'(?:Age|年龄)')` -/
def REGEX_PROFILE_AGE : RPat :=
  { toks := makeProfileToks [[.lit "Age"], [.lit "年龄"]], ci := true }

/-- `re.compile(r'<div[^>]*class=["\']label["\'][^>]*>\s*(?:Age|年龄)[:\s：]*</div>\s*<div[^>]*class=["\']data["\'][^>]*>\s*(\d{1,3})\s*</div>', re.IGNORECASE)` -/
def REGEX_PROFILE_AGE_ALT : RPat :=
  { toks := [.lit "<div", .star notGt, .lit "class=", .cls isQuote,
      .lit "label", .cls isQuote, .star notGt, .lit ">", .star wsChar,
      .alt [[.lit "Age"], [.lit "年龄"]], .star colonWsCn, .lit "</div>",
      .star wsChar, .lit "<div", .star notGt, .lit "class=", .cls isQuote,
      .lit "data", .cls isQuote, .star notGt, .lit ">", .star wsChar,
      .grp 1 [.cls pyIsDigitChar, .opt pyIsDigitChar, .opt pyIsDigitChar],
      .star wsChar, .lit "</div>"], ci := true }

/-- `re.compile(r'"age"\s*:\s*(\d{1,3})(?:\D|$)', re.IGNORECASE)` -/
def REGEX_PROFILE_AGE_DATA : RPat :=
  { toks := [.lit "\"age\"", .star wsChar, .lit ":", .star wsChar,
      .grp 1 [.cls pyIsDigitChar, .opt pyIsDigitChar, .opt pyIsDigitChar],
      .alt [[.cls nonDigit], [.endAnchor]]], ci := true }

/-- `room_pattern` of `Client._parse_search_results`:
`re.compile(r'<a[^>]+href=["\']/?(?:room|video|profile)/([^"\'/]+)["\'][^>]*>', re.DOTALL | re.IGNORECASE)` -/
def ROOM_PATTERN : RPat :=
  { toks := [.lit "<a", .plus notGt, .lit "href=", .cls isQuote,
      .opt slashChar, .alt [[.lit "room"], [.lit "video"], [.lit "profile"]],
      .lit "/", .grp 1 [.plus notQuoteSlash], .cls isQuote, .star notGt,
      .lit ">"], ci := true }

/-- `username_pattern` of `Client._parse_search_results`:
`re.compile(r'data-(?:username|room|id)=["\']([^"\'/]+)["\']', re.IGNORECASE)` -/
def USERNAME_PATTERN : RPat :=
  { toks := [.lit "data-", .alt [[.lit "username"], [.lit "room"], [.lit "id"]],
      .lit "=", .cls isQuote, .grp 1 [.plus notQuoteSlash], .cls isQuote],
    ci := true }

/-- `json_room_pattern` of `Client._parse_search_results`:
`re.compile(r'["\'](?:username|room_id|id)["\']\s*:\s*["\']([^"\'/]+)["\']', re.IGNORECASE)` -/
def JSON_ROOM_PATTERN : RPat :=
  { toks := [.cls isQuote, .alt [[.lit "username"], [.lit "room_id"], [.lit "id"]],
      .cls isQuote, .star wsChar, .lit ":", .star wsChar, .cls isQuote,
      .grp 1 [.plus notQuoteSlash], .cls isQuote], ci := true }

/-- Inline pattern of `Video._parse_iso_duration`:
`r'PT(?:(\d+)H)?(?:(\d+)M)?(?:(\d+)S)?'` with `re.IGNORECASE`,
used with `re.match` (anchored). An optional group `(?:(\d+)X)?` is an
ordered alternation between its body and the empty branch. -/
def ISO_DURATION_PATTERN : RPat :=
  { toks := [.lit "PT",
      .alt [[.grp 1 [.plus pyIsDigitChar], .lit "H"], []],
      .alt [[.grp 2 [.plus pyIsDigitChar], .lit "M"], []],
      .alt [[.grp 3 [.plus pyIsDigitChar], .lit "S"], []]], ci := true }

/-! ## JSON values and `json.loads`

`Video._parse_json_ld` feeds each `application/ld+json` script body to
`json.loads(..., strict=False)`; failures are skipped. The parser below
follows the JSON grammar (`strict=False` only relaxes control
characters inside strings, which changes nothing here since the model
accepts any unescaped character). A decoded float is represented
exactly as a rational. -/

inductive JsonValue where
  | null : JsonValue
  | jbool : Bool → JsonValue
  | jint : Int → JsonValue
  | jfloat : Rat → JsonValue
  | jstr : String → JsonValue
  | jarr : List JsonValue → JsonValue
  | jobj : List (String × JsonValue) → JsonValue
  deriving Repr

/-- JSON insignificant whitespace. -/
def jsonWs (c : Char) : Bool :=
  c = ' ' ∨ c = '\t' ∨ c = '\n' ∨ c = '\r'

/-- Hex digit value (case-insensitive). -/
def hexVal (c : Char) : Option Nat :=
  if pyIsDigitChar c then some (c.toNat - 48)
  else
    let l := c.toLower
    if 'a' ≤ l ∧ l ≤ 'f' then some (l.toNat - 87) else none

/-- Body of a JSON string after the opening quote: returns the decoded
characters and the input after the closing quote. Handles the standard
escapes; with `strict=False` any other character is accepted verbatim. -/
def parseJsonStr : Nat → List Char → Option (List Char × List Char)
  | 0, _ => none
  | _ + 1, [] => none
  | _ + 1, '"' :: rest => some ([], rest)
  | fuel + 1, '\\' :: e :: rest =>
    match e with
    | '"' => (parseJsonStr fuel rest).map (fun r => ('"' :: r.1, r.2))
    | '\\' => (parseJsonStr fuel rest).map (fun r => ('\\' :: r.1, r.2))
    | '/' => (parseJsonStr fuel rest).map (fun r => ('/' :: r.1, r.2))
    | 'b' => (parseJsonStr fuel rest).map (fun r => ('\x08' :: r.1, r.2))
    | 'f' => (parseJsonStr fuel rest).map (fun r => ('\x0c' :: r.1, r.2))
    | 'n' => (parseJsonStr fuel rest).map (fun r => ('\n' :: r.1, r.2))
    | 'r' => (parseJsonStr fuel rest).map (fun r => ('\r' :: r.1, r.2))
    | 't' => (parseJsonStr fuel rest).map (fun r => ('\t' :: r.1, r.2))
    | 'u' =>
      match rest with
      | a :: b :: c :: d :: rest' =>
        match hexVal a, hexVal b, hexVal c, hexVal d with
        | some x, some y, some z, some w =>
          let n := ((x * 16 + y) * 16 + z) * 16 + w
          if n.isValidChar then
            (parseJsonStr fuel rest').map (fun r => (Char.ofNat n :: r.1, r.2))
          else none
        | _, _, _, _ => none
      | _ => none
    | _ => none
  | fuel + 1, c :: rest =>
    (parseJsonStr fuel rest).map (fun r => (c :: r.1, r.2))

/-- JSON unsigned integer part: `0` or a nonzero digit followed by
digits. -/
def parseJsonIntPart : List Char → Option (List Char × List Char)
  | '0' :: rest => some (['0'], rest)
  | c :: rest =>
    if pyIsDigitChar c ∧ c ≠ '0' then
      some (c :: rest.takeWhile pyIsDigitChar, rest.dropWhile pyIsDigitChar)
    else none
  | [] => none

/-- JSON number starting at the head of the input (after an optional
leading minus handled by the caller): integer part, optional fraction,
optional exponent. Returns its exact value and whether it was a float
literal. -/
def parseJsonNumCore (cs : List Char) : Option ((Rat × Bool) × List Char) :=
  match parseJsonIntPart cs with
  | none => none
  | some (ip, rest) =>
    let intVal : Rat := (digitsToNat ip : Int)
    let (fracVal, isF1, rest1) :=
      match rest with
      | '.' :: r =>
        let fd := r.takeWhile pyIsDigitChar
        if fd.isEmpty then ((0 : Rat), false, rest)
        else ((digitsToNat fd : Rat) / ((10 : Rat) ^ fd.length),
          true, r.dropWhile pyIsDigitChar)
      | _ => ((0 : Rat), false, rest)
    if !isF1 && (match rest1 with
        | 'e' :: _ => false | 'E' :: _ => false | _ => true) then
      some ((intVal, false), rest1)
    else
      match rest1 with
      | 'e' :: r | 'E' :: r =>
        let sgn : Int := if r.head? = some '-' then -1 else 1
        let r' : List Char :=
          if r.head? = some '-' ∨ r.head? = some '+' then r.tail else r
        let ed := r'.takeWhile pyIsDigitChar
        if ed.isEmpty then none
        else
          let e : Int := sgn * (digitsToNat ed : Int)
          let base := intVal + fracVal
          let v := if e ≥ 0 then base * ((10 : Rat) ^ e.toNat)
            else base / ((10 : Rat) ^ (-e).toNat)
          some ((v, true), r'.dropWhile pyIsDigitChar)
      | _ => some ((intVal + fracVal, true), rest1)

/-- Parser state: a JSON value, the members of an object after `{`, or
the elements of an array after `[` (the accumulators hold what has been
parsed so far in document order). Merging the three mutually recursive
parse functions into one mode-indexed function keeps the recursion
structural on the fuel. -/
inductive JMode where
  | value : JMode
  | obj : List (String × JsonValue) → JMode
  | arr : List JsonValue → JMode

/-- One JSON production starting at the head of the input (leading
whitespace already skipped), by mode. -/
def parseJson : Nat → JMode → List Char → Option (JsonValue × List Char)
  | 0, _, _ => none
  | _ + 1, .value, 'n' :: 'u' :: 'l' :: 'l' :: rest => some (.null, rest)
  | _ + 1, .value, 't' :: 'r' :: 'u' :: 'e' :: rest => some (.jbool true, rest)
  | _ + 1, .value, 'f' :: 'a' :: 'l' :: 's' :: 'e' :: rest =>
    some (.jbool false, rest)
  | fuel + 1, .value, '"' :: rest =>
    (parseJsonStr fuel rest).map (fun r => (.jstr (String.mk r.1), r.2))
  | fuel + 1, .value, '{' :: rest =>
    parseJson fuel (.obj []) (rest.dropWhile jsonWs)
  | fuel + 1, .value, '[' :: rest =>
    parseJson fuel (.arr []) (rest.dropWhile jsonWs)
  | _ + 1, .value, '-' :: rest =>
    (parseJsonNumCore rest).map (fun r =>
      (if r.1.2 then .jfloat (-r.1.1) else .jint (-r.1.1.num), r.2))
  | _ + 1, .value, cs =>
    (parseJsonNumCore cs).map (fun r =>
      (if r.1.2 then .jfloat r.1.1 else .jint r.1.1.num, r.2))
  | _ + 1, .obj acc, '}' :: rest =>
    if acc.isEmpty then some (.jobj [], rest) else none
  | fuel + 1, .obj acc, '"' :: rest =>
    (match parseJsonStr fuel rest with
     | none => none
     | some (key, rest1) =>
       match rest1.dropWhile jsonWs with
       | ':' :: rest2 =>
         (match parseJson fuel .value (rest2.dropWhile jsonWs) with
          | none => none
          | some (v, rest3) =>
            let acc' := acc ++ [(String.mk key, v)]
            match rest3.dropWhile jsonWs with
            | ',' :: rest4 => parseJson fuel (.obj acc') (rest4.dropWhile jsonWs)
            | '}' :: rest4 => some (.jobj acc', rest4)
            | _ => none)
       | _ => none)
  | _ + 1, .obj _, _ => none
  | _ + 1, .arr acc, ']' :: rest =>
    if acc.isEmpty then some (.jarr [], rest) else none
  | fuel + 1, .arr acc, cs =>
    (match parseJson fuel .value cs with
     | none => none
     | some (v, rest) =>
       let acc' := acc ++ [v]
       match rest.dropWhile jsonWs with
       | ',' :: rest1 => parseJson fuel (.arr acc') (rest1.dropWhile jsonWs)
       | ']' :: rest1 => some (.jarr acc', rest1)
       | _ => none)

/-- `json.loads(s, strict=False)`: one value, with nothing but
whitespace after it; `none` models `JSONDecodeError`. -/
def jsonLoads (s : String) : Option JsonValue :=
  let cs := s.data.dropWhile jsonWs
  match parseJson (cs.length + 1) .value cs with
  | some (v, rest) => if (rest.dropWhile jsonWs).isEmpty then some v else none
  | none => none

/-! ## JSON-LD mapping (`Video._parse_json_ld`, `Video._flatten_dict`)

A Python `dict` built by repeated `update` is modelled as the list of
insertions in order; membership is `any` and indexing takes the most
recent binding (last write wins). -/

/-- `Video._flatten_dict(d, parent_key, sep="_")`: flatten nested
objects into underscore-joined keys; non-object values (including
arrays) are kept whole. The fuel dominates the structure size. -/
def flatten_dict : Nat → String → List (String × JsonValue) →
    List (String × JsonValue)
  | 0, _, _ => []
  | _ + 1, _, [] => []
  | fuel + 1, parent, (k, v) :: rest =>
    let newKey := if parent = "" then k else parent ++ "_" ++ k
    (match v with
      | .jobj kvs => flatten_dict fuel newKey kvs
      | _ => [(newKey, v)]) ++ flatten_dict fuel parent rest

/-- `Video._parse_json_ld`: every `application/ld+json` script body is
parsed (`strict=False`), undecodable blocks are skipped, top-level
objects (or the object elements of a top-level array) are flattened
and merged into one mapping, later blocks overwriting earlier keys. -/
def parse_json_ld (c : String) : List (String × JsonValue) :=
  if c = "" then []
  else
    (rFindAllGrp1 REGEX_JSON_LD c).foldl
      (fun acc m =>
        match jsonLoads (pyStrip m) with
        | some (.jobj kvs) => acc ++ flatten_dict (m.length + 1) "" kvs
        | some (.jarr items) =>
          acc ++ items.foldl
            (fun a it =>
              match it with
              | .jobj kvs => a ++ flatten_dict (m.length + 1) "" kvs
              | _ => a) []
        | _ => acc)
      []

/-- `mapping[k]` for the insertion-list model of a Python dict: the
most recent binding (`dict.update` overwrites). `none` is `k not in
mapping`. -/
def dictLookup (d : List (String × JsonValue)) (k : String) : Option JsonValue :=
  (d.reverse.find? (fun kv => kv.1 = k)).map (fun kv => kv.2)

/-- Python `int(v)` on a decoded JSON value: parses strings, truncates
floats toward zero, converts booleans; `null`/arrays/objects raise
`TypeError`. -/
def pyIntOfJson : JsonValue → Except PyErr Int
  | .jstr s => pyIntE s
  | .jint n => .ok n
  | .jfloat q => .ok (if q < 0 then -((-q).floor) else q.floor)
  | .jbool b => .ok (if b then 1 else 0)
  | .null => .error .typeError
  | .jarr _ => .error .typeError
  | .jobj _ => .error .typeError

/-- Core of Python `float(s)` after sign handling: digits, optional
fraction, optional exponent, with at least one digit in the mantissa
(`"5."`, `".5"` are accepted, `"."`, `"1.2.3"` are not). `inf`/`nan`
spellings are not modelled (never produced by the call sites). -/
def floatCore (cs : List Char) : Option Rat :=
  let ip := cs.takeWhile pyIsDigitChar
  let rest := cs.dropWhile pyIsDigitChar
  let fpRest : List Char × List Char :=
    match rest with
    | '.' :: r => (r.takeWhile pyIsDigitChar, r.dropWhile pyIsDigitChar)
    | _ => ([], rest)
  let fp := fpRest.1
  let rest1 := fpRest.2
  if ip.isEmpty ∧ fp.isEmpty then none
  else
    let base : Rat := ((digitsToNat ip : Int) : Rat) +
      ((digitsToNat fp : Int) : Rat) / ((10 : Rat) ^ fp.length)
    match rest1 with
    | [] => some base
    | 'e' :: r | 'E' :: r =>
      let esgn : Int := if r.head? = some '-' then -1 else 1
      let r' : List Char :=
        if r.head? = some '-' ∨ r.head? = some '+' then r.tail else r
      let ed := r'.takeWhile pyIsDigitChar
      if ed.isEmpty ∨ ¬ (r'.dropWhile pyIsDigitChar).isEmpty then none
      else
        let e : Int := esgn * (digitsToNat ed : Int)
        some (if e ≥ 0 then base * ((10 : Rat) ^ e.toNat)
          else base / ((10 : Rat) ^ (-e).toNat))
    | _ => none

/-- Python `float(s)`: strip, optional sign, `floatCore`; anything else
raises `ValueError`. -/
def pyFloatE (s : String) : Except PyErr Rat :=
  match pyStripList s.data with
  | '+' :: rest =>
    match floatCore rest with
    | some q => .ok q
    | none => .error .valueError
  | '-' :: rest =>
    match floatCore rest with
    | some q => .ok (-q)
    | none => .error .valueError
  | rest =>
    match floatCore rest with
    | some q => .ok q
    | none => .error .valueError

/-- Python `float(v)` on a decoded JSON value. -/
def pyFloatOfJson : JsonValue → Except PyErr Rat
  | .jstr s => pyFloatE s
  | .jint n => .ok (n : Rat)
  | .jfloat q => .ok q
  | .jbool b => .ok (if b then 1 else 0)
  | .null => .error .typeError
  | .jarr _ => .error .typeError
  | .jobj _ => .error .typeError

/-! ## Derived field accessors of `Video`

Each accessor is a function of the loaded raw content. Accessors whose
body contains an `int(...)`/`float(...)` call are embedded in
`Except PyErr` so that exception propagation (or its absence) is part
of the model; a `try/except` of the source appears as a `match` on the
`Except` whose error branch continues exactly where `except: pass` (or
`continue`) resumes. -/

/-- Index of the last occurrence of `pat` in the list starting at
offset `i` (for `str.rsplit(sep, 1)`). -/
def lastIndexOfSub (pat : List Char) : List Char → Nat → Option Nat
  | [], i => if pat.isEmpty then some i else none
  | c :: cs, i =>
    match lastIndexOfSub pat cs (i + 1) with
    | some j => some j
    | none => if pat.isPrefixOf (c :: cs) then some i else none

/-- Python `t.rsplit(sep, 1)[0]`: everything before the last
occurrence of `sep` (or `t` itself if `sep` does not occur). -/
def rsplitOnceBefore (sep t : String) : String :=
  match lastIndexOfSub sep.data t.data 0 with
  | some i => String.mk (t.data.take i)
  | none => t

/-- `Video.title`: `og:title` meta value (unescaped, stripped), else
`<title>` text with a trailing `" - Site"` suffix removed, else the
JSON-LD `name` value (returned as decoded, whatever its type). -/
def titleF (c : String) : Option JsonValue :=
  if c = "" then none
  else
    match rSearchGrp REGEX_VIDEO_TITLE_META 1 c with
    | some g => some (.jstr (pyUnescape (pyStrip g)))
    | none =>
      match rSearchGrp REGEX_VIDEO_TITLE 1 c with
      | some g =>
        let t := pyUnescape (pyStrip g)
        let t := if pyContains t " - " then rsplitOnceBefore " - " t else t
        some (.jstr t)
      | none => dictLookup (parse_json_ld c) "name"

/-- `Video._parse_iso_duration`: anchored match of the `PT#H#M#S`
pattern; absent groups count 0 (`int(group or 0)`, the groups are
digit runs); no match at all gives 0. -/
def parse_iso_duration (ds : String) : Int :=
  match reMatchAt true ISO_DURATION_PATTERN.toks ds.data with
  | some m =>
    let g : Nat → Int := fun n =>
      match m.groups.find? (fun kv => kv.1 = n) with
      | some kv => (digitsToNat kv.2.data : Int)
      | none => 0
    g 1 * 3600 + g 2 * 60 + g 3
  | none => 0

/-- `Video.duration`: the `video:duration` meta pattern, then the
loose `duration:` pattern (each guarded by `isdigit` inside a
`try/except` that falls through on failure), then the JSON-LD
`duration` value when it is a string starting with `"PT"`. -/
def durationF (c : String) : Except PyErr (Option Int) :=
  if c = "" then .ok none
  else
    let jsonStep : Except PyErr (Option Int) :=
      match dictLookup (parse_json_ld c) "duration" with
      | some (.jstr ds) =>
        if pyStartsWith ds "PT" then .ok (some (parse_iso_duration ds))
        else .ok none
      | _ => .ok none
    let altStep : Except PyErr (Option Int) :=
      match rSearchGrp REGEX_VIDEO_DURATION_ALT 1 c with
      | some g =>
        let ds := pyStrip g
        if ds ≠ "" ∧ pyIsDigitStr ds then
          match pyIntE ds with
          | .ok n => .ok (some n)
          | .error _ => jsonStep
        else jsonStep
      | none => jsonStep
    match rSearchGrp REGEX_VIDEO_DURATION 1 c with
    | some g =>
      let ds := pyStrip g
      if ds ≠ "" ∧ pyIsDigitStr ds then
        match pyIntE ds with
        | .ok n => .ok (some n)
        | .error _ => altStep
      else altStep
    | none => altStep

/-- `f"{n:02d}"` for the nonnegative minute/second fields. -/
def pad2 (n : Int) : String :=
  if 0 ≤ n ∧ n < 10 then "0" ++ toString n else toString n

/-- `Video.duration_formatted`: `divmod` split of the duration with
hours omitted when zero; minutes are zero-padded only in the
hours-present form, seconds always. -/
def duration_formattedF (c : String) : Except PyErr (Option String) :=
  match durationF c with
  | .error e => .error e
  | .ok none => .ok none
  | .ok (some d) =>
    let hours := Int.fdiv d 3600
    let rem := Int.fmod d 3600
    let minutes := Int.fdiv rem 60
    let seconds := Int.fmod rem 60
    if hours > 0 then
      .ok (some (toString hours ++ ":" ++ pad2 minutes ++ ":" ++ pad2 seconds))
    else .ok (some (toString minutes ++ ":" ++ pad2 seconds))

/-- JSON-LD fallback of `Video.views`: `int(interactionCount)` inside
`try/except (ValueError, TypeError)`, absorbing the failure. -/
def viewsJsonStep (c : String) : Except PyErr (Option Int) :=
  match dictLookup (parse_json_ld c) "interactionCount" with
  | some v =>
    match pyIntOfJson v with
    | .ok n => .ok (some n)
    | .error _ => .ok none
  | none => .ok none

/-- `Video.views`: comma-stripped regex capture converted by a bare
`int(...)` guarded only by `isdigit` (no `try` around it), else the
JSON-LD fallback. -/
def viewsF (c : String) : Except PyErr (Option Int) :=
  if c = "" then .ok none
  else
    match rSearchGrp REGEX_VIDEO_VIEWS 1 c with
    | some g =>
      let vs := pyStrip (pyRemoveChar ',' g)
      if vs ≠ "" ∧ pyIsDigitStr vs then
        match pyIntE vs with
        | .ok n => .ok (some n)
        | .error e => .error e
      else viewsJsonStep c
    | none => viewsJsonStep c

/-- JSON-LD fallback of `Video.rating`. -/
def ratingJsonStep (c : String) : Except PyErr (Option Rat) :=
  match dictLookup (parse_json_ld c) "aggregateRating_ratingValue" with
  | some v =>
    match pyFloatOfJson v with
    | .ok q => .ok (some q)
    | .error _ => .ok none
  | none => .ok none

/-- `Video.rating`: `float(...)` of the regex capture inside
`try/except`, else the JSON-LD fallback. -/
def ratingF (c : String) : Except PyErr (Option Rat) :=
  if c = "" then .ok none
  else
    match rSearchGrp REGEX_VIDEO_RATING 1 c with
    | some g =>
      let rs := pyStrip g
      if rs ≠ "" then
        match pyFloatE rs with
        | .ok q => .ok (some q)
        | .error _ => ratingJsonStep c
      else ratingJsonStep c
    | none => ratingJsonStep c

/-- `Video.likes`: comma-stripped capture with `isdigit` guard inside
`try/except`; no JSON-LD fallback. -/
def likesF (c : String) : Except PyErr (Option Int) :=
  if c = "" then .ok none
  else
    match rSearchGrp REGEX_VIDEO_LIKES 1 c with
    | some g =>
      let ls := pyStrip (pyRemoveChar ',' g)
      if ls ≠ "" ∧ pyIsDigitStr ls then
        match pyIntE ls with
        | .ok n => .ok (some n)
        | .error _ => .ok none
      else .ok none
    | none => .ok none

/-- Pattern loop of `Video.followers`: first pattern whose capture
(commas removed, stripped) converts; a `ValueError`/`TypeError` from
`int(...)` continues with the next pattern. -/
def followersLoop (c : String) : List RPat → Except PyErr (Option Int)
  | [] => .ok none
  | p :: ps =>
    match rSearchGrp p 1 c with
    | some g =>
      match pyIntE (pyStrip (pyRemoveChar ',' g)) with
      | .ok n => .ok (some n)
      | .error _ => followersLoop c ps
    | none => followersLoop c ps

/-- `Video.followers`. -/
def followersF (c : String) : Except PyErr (Option Int) :=
  if c = "" then .ok none
  else followersLoop c
    [REGEX_PROFILE_FOLLOWERS, REGEX_PROFILE_FOLLOWERS_ALT,
      REGEX_PROFILE_FOLLOWERS_DATA]

/-- Pattern loop of `Video.age`: like `followersLoop` but with a plain
stripped capture (`int(match.group(1).strip())`). -/
def ageLoop (c : String) : List RPat → Except PyErr (Option Int)
  | [] => .ok none
  | p :: ps =>
    match rSearchGrp p 1 c with
    | some g =>
      match pyIntE (pyStrip g) with
      | .ok n => .ok (some n)
      | .error _ => ageLoop c ps
    | none => ageLoop c ps

/-- `Video.age`. -/
def ageF (c : String) : Except PyErr (Option Int) :=
  if c = "" then .ok none
  else ageLoop c [REGEX_PROFILE_AGE, REGEX_PROFILE_AGE_ALT, REGEX_PROFILE_AGE_DATA]

/-! ## Media sources and quality selection -/

/-- `ROOT_URL` of `consts.py`. -/
def ROOT_URL : String := "https://secure.xview.tv/"

/-- One discovered media source (`{"url": ..., "quality": ...,
"format": ...}`). -/
structure VideoSource where
  url : String
  quality : Nat
  format : String
  deriving Repr, DecidableEq

/-- `Video._detect_quality`: first `NNNp`/`NNNNp` token of the URL, or
0 when absent. -/
def detect_quality (url : String) : Nat :=
  match rSearchGrp REGEX_VIDEO_QUALITY 1 url with
  | some g => digitsToNat g.data
  | none => 0

/-- `Video._detect_format`: extension sniffing on the lowercased URL. -/
def detect_format (url : String) : String :=
  let l := pyLower url
  if pyContains l ".mp4" then "mp4"
  else if pyContains l ".m3u8" then "m3u8"
  else if pyContains l ".webm" then "webm"
  else "unknown"

/-- Guarded append used by the later passes of
`Video._extract_video_sources`: skip the URL if any accumulated entry
already carries it. -/
def appendIfNewUrl (acc : List VideoSource) (s : VideoSource) : List VideoSource :=
  if acc.any (fun t => t.url = s.url) then acc else acc ++ [s]

/-- `Video._extract_video_sources`: `<source>` tags (appended
unconditionally), then bare `.mp4` URLs, bare `.m3u8` URLs and
script-variable URLs (each guarded against already-present URLs), then
the JSON-LD `contentUrl` (same guard). The `contentUrl` value is
modelled for string values, the type the pages put there (a non-string
value would make the Python `re.search` inside `_detect_quality` raise
`TypeError`). -/
def extract_video_sources (c : String) : List VideoSource :=
  if c = "" then []
  else
    let p1 : List VideoSource :=
      (rFindAllGrp1 REGEX_VIDEO_SOURCE c).map
        (fun u => { url := u, quality := detect_quality u, format := detect_format u })
    let p2 := (rFindAllGrp1 REGEX_VIDEO_SOURCE_MP4 c).foldl
      (fun acc u => appendIfNewUrl acc
        { url := u, quality := detect_quality u, format := "mp4" }) p1
    let p3 := (rFindAllGrp1 REGEX_VIDEO_SOURCE_M3U8 c).foldl
      (fun acc u => appendIfNewUrl acc
        { url := u, quality := detect_quality u, format := "m3u8" }) p2
    let p4 := (rFindIter REGEX_VIDEO_SOURCE_JS c).foldl
      (fun acc m =>
        match (m.groups.find? (fun kv => kv.1 = 1)).map (fun kv => kv.2),
            (m.groups.find? (fun kv => kv.1 = 2)).map (fun kv => kv.2) with
        | some u, some f => appendIfNewUrl acc
          { url := u, quality := detect_quality u, format := pyLower f }
        | _, _ => acc) p3
    match dictLookup (parse_json_ld c) "contentUrl" with
    | some (.jstr u) => appendIfNewUrl p4
      { url := u, quality := detect_quality u, format := detect_format u }
    | _ => p4

/-- Stable descending insertion by quality: an element is placed
before the first strictly lower-quality element, after equal ones. -/
def insertByQualityDesc (s : VideoSource) : List VideoSource → List VideoSource
  | [] => [s]
  | h :: t =>
    if h.quality ≤ s.quality then s :: h :: t else h :: insertByQualityDesc s t

/-- `sorted(xs, key=lambda x: x["quality"], reverse=True)`: Python's
sort is stable, and a stable descending sort of a list is unique, so
the insertion formulation below computes exactly the `sorted` result. -/
def sortByQualityDesc (l : List VideoSource) : List VideoSource :=
  l.foldr insertByQualityDesc []

/-- Python `min(xs, key=f)` (first minimum wins); `none` on the empty
list (where Python raises, unreachable at the call site). -/
def pyMinBy {α : Type} (key : α → Nat) : List α → Option α
  | [] => none
  | x :: xs => some (xs.foldl (fun b a => if key a < key b then a else b) x)

/-- `Video.get_video_url` after source discovery, as a function of the
discovered source list: restrict to mp4 (falling back to every source
when none), sort by quality descending, then resolve the requested
token (`best`/`worst`/`half`/numeric with optional `p`s removed; an
unparseable token yields the best entry; `except ValueError` covers
only the `int` conversion). -/
def get_video_url_from (sources : List VideoSource) (quality : String) :
    Option String :=
  if sources.isEmpty then none
  else
    let mp4_sources := sources.filter (fun s => s.format = "mp4")
    let mp4_sources := if mp4_sources.isEmpty then sources else mp4_sources
    let sorted_sources := sortByQualityDesc mp4_sources
    if quality = "best" then sorted_sources.head?.map (fun s => s.url)
    else if quality = "worst" then sorted_sources.getLast?.map (fun s => s.url)
    else if quality = "half" then
      (sorted_sources.get? (sorted_sources.length / 2)).map (fun s => s.url)
    else
      match pyIntE (pyRemoveChar 'p' quality) with
      | .ok target =>
        match sorted_sources.find? (fun s => (s.quality : Int) = target) with
        | some s => some s.url
        | none =>
          (pyMinBy (fun s => ((s.quality : Int) - target).natAbs)
            sorted_sources).map (fun s => s.url)
      | .error _ => sorted_sources.head?.map (fun s => s.url)

/-- `Video.get_video_url` as a function of the raw content. -/
def get_video_url (c : String) (quality : String) : Option String :=
  get_video_url_from (extract_video_sources c) quality

/-! ## The mutable `Video` object

`functools.cached_property` stores the computed value in the
instance `__dict__` under the property's own name (`"title"`, ...).
`set_html_content` deletes exactly the `__dict__` entries whose name
starts with `"_cached_"`. The state below models the instance: its
`cache` is the `__dict__` slice holding cached property values keyed
by attribute name (carried here for the `title` property, the one the
theorems exercise; every cached property behaves alike), and
`jsonLdData` / `videoSources` are the two hand-rolled memo fields. -/

structure VideoState where
  videoId : String
  htmlContent : Option String
  jsonLdData : Option (List (String × JsonValue))
  videoSources : Option (List VideoSource)
  cache : List (String × Option JsonValue)
  deriving Repr

/-- `Video.__init__(video_id, html_content=None)`. -/
def initVideo (videoId : String) (htmlContent : Option String := none) :
    VideoState :=
  { videoId := videoId, htmlContent := htmlContent, jsonLdData := none,
    videoSources := none, cache := [] }

/-- `Video.set_html_content`: store the unescaped content, then delete
every `__dict__` entry whose attribute name starts with `"_cached_"`
(all other entries survive). -/
def set_html_content (v : VideoState) (content : String) : VideoState :=
  { v with
    htmlContent := some (pyUnescape content),
    cache := v.cache.filter (fun kv => ¬ pyStartsWith kv.1 "_cached_") }

/-- Reading the `title` cached property: return the `__dict__` entry
stored under `"title"` when present, else compute `titleF` on the
current content and store it under that name. -/
def readTitle (v : VideoState) : Option JsonValue × VideoState :=
  match v.cache.find? (fun kv => kv.1 = "title") with
  | some kv => (kv.2, v)
  | none =>
    let t := match v.htmlContent with
      | some c => titleF c
      | none => titleF ""
    (t, { v with cache := v.cache ++ [("title", t)] })

/-! ## `Client` operations

Network effects are abstracted by a fetch oracle
`String → Except XErr String` giving each URL's outcome; `get_video`
is then a pure function of the oracle. -/

/-- The exception taxonomy of `errors.py` (plus the transport errors
`Client.fetch` can surface). -/
inductive XErr where
  | videoNotFound : String → XErr
  | videoDisabled : String → XErr
  | invalidURL : String → XErr
  | networkError : String → XErr
  | qualityNotAvailable : String → XErr
  deriving Repr, DecidableEq

/-- `Video._extract_video_id`: for scheme-prefixed URLs try
`/video/(\d+)` then the loose variant; otherwise (or when both fail to
apply) a pure digit string is its own id; anything else raises
`InvalidURL`. -/
def extract_video_id (url : String) : Except XErr String :=
  let fallback : Except XErr String :=
    if pyIsDigitStr url then .ok url
    else .error (.invalidURL url)
  if pyStartsWith url "http://" ∨ pyStartsWith url "https://" then
    match rSearchGrp REGEX_VIDEO_ID 1 url with
    | some g => .ok g
    | none =>
      match rSearchGrp REGEX_VIDEO_ID_ALT 1 url with
      | some g => .ok g
      | none => fallback
  else fallback

/-- Loop state of `Client.get_video`'s candidate-URL loop. -/
structure FetchLoopState where
  htmlContent : Option String
  lastError : Option XErr
  chosenUrl : Option String

/-- The `for url in urls_to_try` loop of `Client.get_video`: a
successful fetch stores its body (whatever its size); only a non-empty
body longer than 1000 characters fixes the canonical URL and stops the
loop; an exception is recorded and the loop continues. -/
def getVideoLoop (fetch : String → Except XErr String) :
    List String → FetchLoopState → FetchLoopState
  | [], st => st
  | url :: rest, st =>
    match fetch url with
    | .ok body =>
      if body ≠ "" ∧ body.length > 1000 then
        { htmlContent := some body, lastError := st.lastError,
          chosenUrl := some url }
      else
        getVideoLoop fetch rest
          { htmlContent := some body, lastError := st.lastError,
            chosenUrl := st.chosenUrl }
    | .error e =>
      getVideoLoop fetch rest
        { htmlContent := st.htmlContent, lastError := some e,
          chosenUrl := st.chosenUrl }

/-- `Client.get_video(video_id)`: build the `Video` (extracting the id
when the argument is scheme-prefixed), try the candidate URLs (one:
`ROOT_URL + id + "/"`), then — only if the final body is `None` or
empty — raise the recorded error or `VideoNotFound`; otherwise load
the body into the record and return it. -/
def get_video (fetch : String → Except XErr String) (video_id : String) :
    Except XErr VideoState :=
  match
    (if pyStartsWith video_id "http://" ∨ pyStartsWith video_id "https://" then
      (extract_video_id video_id).map (fun i => initVideo i)
    else .ok (initVideo video_id)) with
  | .error e => .error e
  | .ok video =>
    let urls_to_try := [ROOT_URL ++ video.videoId ++ "/"]
    let st := getVideoLoop fetch urls_to_try
      { htmlContent := none, lastError := none, chosenUrl := none }
    match st.htmlContent with
    | none =>
      match st.lastError with
      | some e => .error e
      | none => .error (.videoNotFound video_id)
    | some body =>
      if body = "" then
        match st.lastError with
        | some e => .error e
        | none => .error (.videoNotFound video_id)
      else .ok (set_html_content video body)

/-! ## `Client._parse_search_results` -/

/-- One search hit (`{"video_id": ..., "url": ..., "thumbnail": ""}`). -/
structure SearchHit where
  video_id : String
  url : String
  thumbnail : String
  deriving Repr, DecidableEq

/-- Strategy state: hits in discovery order plus the set of ids seen. -/
structure SearchAcc where
  results : List SearchHit
  seen : List String

/-- Pattern-1 step of `_parse_search_results`: keep an anchor id unless
empty, already seen, or an asset path (`css`/`js`/`static` prefix). -/
def searchStep1 (acc : SearchAcc) (room_id : String) : SearchAcc :=
  if room_id ≠ "" ∧ room_id ∉ acc.seen ∧
      ¬ (pyStartsWith room_id "css" ∨ pyStartsWith room_id "js" ∨
        pyStartsWith room_id "static") then
    { results := acc.results ++
        [{ video_id := room_id, url := ROOT_URL ++ room_id ++ "/", thumbnail := "" }],
      seen := acc.seen ++ [room_id] }
  else acc

/-- Pattern-3 step (`data-username`/`data-room`/`data-id`). -/
def searchStep3 (acc : SearchAcc) (username : String) : SearchAcc :=
  if username ≠ "" ∧ username ∉ acc.seen then
    { results := acc.results ++
        [{ video_id := username, url := ROOT_URL ++ username ++ "/", thumbnail := "" }],
      seen := acc.seen ++ [username] }
  else acc

/-- Pattern-4 step (JSON `username`/`room_id`/`id`, length > 2). -/
def searchStep4 (acc : SearchAcc) (room_id : String) : SearchAcc :=
  if room_id ≠ "" ∧ room_id ∉ acc.seen ∧ room_id.length > 2 then
    { results := acc.results ++
        [{ video_id := room_id, url := ROOT_URL ++ room_id ++ "/", thumbnail := "" }],
      seen := acc.seen ++ [room_id] }
  else acc

/-- `Client._parse_search_results`: pattern 1 over the whole body; if
it produced nothing, pattern 3; if still nothing, pattern 4; capped at
20 results. The `seen_ids` set is shared across the stages (it is
empty whenever a later stage runs, since every stage adds to `seen`
and `results` together). -/
def parse_search_results (html_content : String) : List SearchHit :=
  let acc0 : SearchAcc := { results := [], seen := [] }
  let acc1 := (rFindAllGrp1 ROOM_PATTERN html_content).foldl searchStep1 acc0
  let acc3 :=
    if acc1.results.isEmpty then
      (rFindAllGrp1 USERNAME_PATTERN html_content).foldl searchStep3 acc1
    else acc1
  let acc4 :=
    if acc3.results.isEmpty then
      (rFindAllGrp1 JSON_ROOM_PATTERN html_content).foldl searchStep4 acc3
    else acc3
  acc4.results.take 20

/-! ## Concrete inputs and derived definitions used by the claim theorems -/

/-- The worked example of the specification: mp4 sources of qualities
1080, 720, 480, 360 (in that discovery order). -/
def C2_example : List VideoSource :=
  [{ url := "u1080", quality := 1080, format := "mp4" },
   { url := "u720", quality := 720, format := "mp4" },
   { url := "u480", quality := 480, format := "mp4" },
   { url := "u360", quality := 360, format := "mp4" }]

/-- Witness content for C10: a single `<source>` tag. -/
def C10_content : String := "<source src='/a/720p.mp4'>"

/-- Content whose `<source>` passes contribute distinct urls. -/
def C5_ok_content : String :=
  "<source src='/a/480p.mp4'> play https://h.x/v/720p.mp4 now"

/-- Two identical `<source>` tags. -/
def C5_dup_content : String :=
  "<source src='/v/720p.mp4'><source src='/v/720p.mp4'>"

/-- The hit a search step synthesizes for an id. -/
def mkSearchHit (id : String) : SearchHit :=
  { video_id := id, url := ROOT_URL ++ id ++ "/", thumbnail := "" }

/-- Strategy 1 run on its own (anchors to room/video/profile paths). -/
def searchStrategy1 (c : String) : List SearchHit :=
  ((rFindAllGrp1 ROOM_PATTERN c).foldl searchStep1
    { results := [], seen := [] }).results

/-- Strategy 2 of the claim (`data-...` attributes; "pattern 3" in the
source) run on its own. -/
def searchStrategy3 (c : String) : List SearchHit :=
  ((rFindAllGrp1 USERNAME_PATTERN c).foldl searchStep3
    { results := [], seen := [] }).results

/-- Strategy 3 of the claim (JSON key/value pairs; "pattern 4" in the
source) run on its own. -/
def searchStrategy4 (c : String) : List SearchHit :=
  ((rFindAllGrp1 JSON_ROOM_PATTERN c).foldl searchStep4
    { results := [], seen := [] }).results

/-- Invariant carried by every search-step fold: `seen` is exactly the
ids of `results` (so the two are empty together), the ids are
pairwise-distinct, and every hit has the synthesized url, an empty
thumbnail, and the step's extra guard `Q`. -/
def searchInv (Q : String → Prop) (acc : SearchAcc) : Prop :=
  acc.seen = acc.results.map (fun h => h.video_id) ∧
  (acc.results.map (fun h => h.video_id)).Nodup ∧
  ∀ h ∈ acc.results,
    h.url = ROOT_URL ++ h.video_id ++ "/" ∧ h.thumbnail = "" ∧ Q h.video_id

/-- Listing body exercising strategy 1: a duplicate anchor and an
asset-path anchor. -/
def C8_content : String :=
  "<a class='c' href='/room/alice'>A</a><a href=\"/video/123\">B</a><a href='/room/alice'>dup</a><a href='/room/css-x'>C</a>"

/-- Initial raw content, `og:title` "First". -/
def C1_contentA : String := "<meta property=\"og:title\" content=\"First\"/>"

/-- Reloaded raw content, `og:title` "Second". -/
def C1_contentB : String := "<meta property=\"og:title\" content=\"Second\"/>"

/-- Content with an `og:title`, a conflicting `<title>` tag and a
conflicting JSON-LD `name`. -/
def C3_priority_content : String :=
  "<meta property=\"og:title\" content=\"OgWins\"/><title>TagTitle - XView</title><script type=\"application/ld+json\">\x7b\"name\": \"LdName\"\x7d</script>"

/-- An `og:title` value ending in a `" - Site"` suffix. -/
def C3_suffix_content : String :=
  "<meta property=\"og:title\" content=\"My Video - XView\"/>"

/-- A successful response body well below the 1000-character
threshold. -/
def C4_short_body : String := "tiny page body"

/-- Fetch oracle answering every URL with the short body. -/
def C4_oracle : String → Except XErr String := fun _ => .ok C4_short_body

/-- Content whose only duration is the JSON-LD `PT1H30M45S`. -/
def C6_content1 : String :=
  "<script type=\"application/ld+json\">\x7b\"duration\": \"PT1H30M45S\"\x7d</script>"

/-- Content whose only duration is the JSON-LD `PT5M9S`. -/
def C6_content2 : String :=
  "<script type=\"application/ld+json\">\x7b\"duration\": \"PT5M9S\"\x7d</script>"

/-! ## Lemmas about the stable descending sort and `min` -/

/-- The mp4-preferring restriction step of `get_video_url`
(`mp4_sources`, falling back to the full list). -/
def mp4Select (srcs : List VideoSource) : List VideoSource :=
  if (srcs.filter (fun s => s.format = "mp4")).isEmpty then srcs
  else srcs.filter (fun s => s.format = "mp4")

theorem mem_insertByQualityDesc {a s : VideoSource} {l : List VideoSource} :
    a ∈ insertByQualityDesc s l ↔ a = s ∨ a ∈ l := by
  induction l with
  | nil => simp [insertByQualityDesc]
  | cons h t ih =>
    simp only [insertByQualityDesc]
    split
    · simp [List.mem_cons]
    · simp [List.mem_cons, ih]
      tauto

theorem length_insertByQualityDesc (s : VideoSource) (l : List VideoSource) :
    (insertByQualityDesc s l).length = l.length + 1 := by
  induction l with
  | nil => rfl
  | cons h t ih =>
    simp only [insertByQualityDesc]
    split
    · rfl
    · simp [ih]

theorem sortByQualityDesc_cons (x : VideoSource) (xs : List VideoSource) :
    sortByQualityDesc (x :: xs) = insertByQualityDesc x (sortByQualityDesc xs) :=
  rfl

theorem mem_sortByQualityDesc {a : VideoSource} {l : List VideoSource} :
    a ∈ sortByQualityDesc l ↔ a ∈ l := by
  induction l with
  | nil => simp [sortByQualityDesc]
  | cons x xs ih =>
    rw [sortByQualityDesc_cons]
    simp [mem_insertByQualityDesc, ih]

theorem length_sortByQualityDesc (l : List VideoSource) :
    (sortByQualityDesc l).length = l.length := by
  induction l with
  | nil => rfl
  | cons x xs ih =>
    rw [sortByQualityDesc_cons, length_insertByQualityDesc, ih]
    rfl

theorem sortByQualityDesc_ne_nil {l : List VideoSource} (h : l ≠ []) :
    sortByQualityDesc l ≠ [] := by
  intro hnil
  apply h
  have := length_sortByQualityDesc l
  rw [hnil] at this
  exact List.length_eq_zero.mp this.symm

theorem pairwise_insertByQualityDesc {s : VideoSource} {l : List VideoSource}
    (h : List.Pairwise (fun a b => b.quality ≤ a.quality) l) :
    List.Pairwise (fun a b => b.quality ≤ a.quality) (insertByQualityDesc s l) := by
  induction l with
  | nil => simp [insertByQualityDesc]
  | cons x t ih =>
    rw [List.pairwise_cons] at h
    simp only [insertByQualityDesc]
    split
    · rename_i hle
      refine List.Pairwise.cons ?_ (List.Pairwise.cons h.1 h.2)
      intro b hb
      rcases List.mem_cons.mp hb with hbx | hbt
      · exact hbx ▸ hle
      · exact le_trans (h.1 b hbt) hle
    · rename_i hgt
      push_neg at hgt
      refine List.Pairwise.cons ?_ (ih h.2)
      intro b hb
      rcases mem_insertByQualityDesc.mp hb with hbs | hbt
      · exact hbs ▸ le_of_lt hgt
      · exact h.1 b hbt

theorem pairwise_sortByQualityDesc (l : List VideoSource) :
    List.Pairwise (fun a b => b.quality ≤ a.quality) (sortByQualityDesc l) := by
  induction l with
  | nil => simp [sortByQualityDesc]
  | cons x xs ih =>
    rw [sortByQualityDesc_cons]
    exact pairwise_insertByQualityDesc ih

theorem filter_insertByQualityDesc (q : Nat) (s : VideoSource)
    (l : List VideoSource) :
    (insertByQualityDesc s l).filter (fun t => t.quality == q) =
      (s :: l).filter (fun t => t.quality == q) := by
  induction l with
  | nil => rfl
  | cons h t ih =>
    simp only [insertByQualityDesc]
    split
    · rfl
    · rename_i hgt
      push_neg at hgt
      by_cases hsq : s.quality = q
      · have hhq : (h.quality == q) = false := by
          simp only [beq_eq_false_iff_ne]
          omega
        simp only [List.filter_cons, hhq, ih]
        have hsq' : (s.quality == q) = true := by simp [hsq]
        simp [List.filter_cons, hsq', hhq]
      · have hsq' : (s.quality == q) = false := by simp [hsq]
        simp [List.filter_cons, ih, hsq']

theorem filter_sortByQualityDesc (q : Nat) (l : List VideoSource) :
    (sortByQualityDesc l).filter (fun t => t.quality == q) =
      l.filter (fun t => t.quality == q) := by
  induction l with
  | nil => rfl
  | cons x xs ih =>
    rw [sortByQualityDesc_cons, filter_insertByQualityDesc]
    simp only [List.filter_cons, ih]

theorem foldlMin_mem {α : Type} (key : α → Nat) (xs : List α) (b : α) :
    xs.foldl (fun b a => if key a < key b then a else b) b ∈ b :: xs := by
  induction xs generalizing b with
  | nil => simp
  | cons x t ih =>
    simp only [List.foldl_cons]
    rcases List.mem_cons.mp (ih (if key x < key b then x else b)) with hh | ht
    · rw [hh]
      split
      · simp
      · simp
    · simp [List.mem_cons, ht]

theorem pyMinBy_mem {α : Type} (key : α → Nat) {l : List α} (h : l ≠ []) :
    ∃ m, pyMinBy key l = some m ∧ m ∈ l := by
  match l with
  | [] => exact absurd rfl h
  | x :: xs =>
    refine ⟨_, rfl, ?_⟩
    exact foldlMin_mem key xs x

theorem mem_mp4Select {a : VideoSource} {srcs : List VideoSource}
    (h : a ∈ mp4Select srcs) : a ∈ srcs := by
  unfold mp4Select at h
  split at h
  · exact h
  · exact List.mem_of_mem_filter h

theorem mp4Select_ne_nil {srcs : List VideoSource} (h : srcs ≠ []) :
    mp4Select srcs ≠ [] := by
  unfold mp4Select
  split
  · exact h
  · rename_i hne
    intro hnil
    exact hne (by simp [hnil])

/-- Unfolding of `get_video_url_from` on a non-empty source list. -/
theorem get_video_url_from_eq (srcs : List VideoSource) (q : String)
    (h : srcs ≠ []) :
    get_video_url_from srcs q =
      (if q = "best" then
        (sortByQualityDesc (mp4Select srcs)).head?.map (fun s => s.url)
      else if q = "worst" then
        (sortByQualityDesc (mp4Select srcs)).getLast?.map (fun s => s.url)
      else if q = "half" then
        ((sortByQualityDesc (mp4Select srcs)).get?
          ((sortByQualityDesc (mp4Select srcs)).length / 2)).map (fun s => s.url)
      else
        match pyIntE (pyRemoveChar 'p' q) with
        | .ok t =>
          match (sortByQualityDesc (mp4Select srcs)).find?
              (fun s => (s.quality : Int) = t) with
          | some s => some s.url
          | none =>
            (pyMinBy (fun s => ((s.quality : Int) - t).natAbs)
              (sortByQualityDesc (mp4Select srcs))).map (fun s => s.url)
        | .error _ =>
          (sortByQualityDesc (mp4Select srcs)).head?.map (fun s => s.url)) := by
  have hne : srcs.isEmpty = false := List.isEmpty_eq_false.mpr h
  simp only [get_video_url_from, mp4Select, hne]
  rfl

theorem get_video_url_from_mem (srcs : List VideoSource) (q : String)
    (h : srcs ≠ []) :
    ∃ s, s ∈ srcs ∧ get_video_url_from srcs q = some s.url := by
  have hch : mp4Select srcs ≠ [] := mp4Select_ne_nil h
  have hss : sortByQualityDesc (mp4Select srcs) ≠ [] := sortByQualityDesc_ne_nil hch
  have hmem : ∀ a, a ∈ sortByQualityDesc (mp4Select srcs) → a ∈ srcs := fun a ha =>
    mem_mp4Select (mem_sortByQualityDesc.mp ha)
  rw [get_video_url_from_eq srcs q h]
  by_cases hb : q = "best"
  · rw [if_pos hb, List.head?_eq_head hss]
    exact ⟨_, hmem _ (List.head_mem hss), rfl⟩
  rw [if_neg hb]
  by_cases hw : q = "worst"
  · rw [if_pos hw, List.getLast?_eq_getLast _ hss]
    exact ⟨_, hmem _ (List.getLast_mem hss), rfl⟩
  rw [if_neg hw]
  by_cases hh : q = "half"
  · rw [if_pos hh]
    have hlt : (sortByQualityDesc (mp4Select srcs)).length / 2 <
        (sortByQualityDesc (mp4Select srcs)).length :=
      Nat.div_lt_self (List.length_pos.mpr hss) one_lt_two
    rw [List.get?_eq_get hlt]
    exact ⟨_, hmem _ (List.get_mem _ _ hlt), rfl⟩
  rw [if_neg hh]
  cases hpi : pyIntE (pyRemoveChar 'p' q) with
  | ok t =>
    cases hf : (sortByQualityDesc (mp4Select srcs)).find?
        (fun s => (s.quality : Int) = t) with
    | some s =>
      refine ⟨s, hmem _ (List.mem_of_find?_eq_some hf), ?_⟩
      simp [hf]
    | none =>
      obtain ⟨m, hm, hmm⟩ :=
        pyMinBy_mem (fun s : VideoSource => ((s.quality : Int) - t).natAbs) hss
      refine ⟨m, hmem _ hmm, ?_⟩
      simp [hf, hm]
  | error e =>
    refine ⟨_, hmem _ (List.head_mem hss), ?_⟩
    simp [List.head?_eq_head hss]

/-- C2: on a non-empty source list, `get_video_url` restricts to
mp4-format sources (falling back to the full list when none exists),
sorts by quality descending with stable ties, and resolves the token:
`"best"` is the first sorted element, `"worst"` the last, `"half"` the
element at index `count / 2`; a numeric token (after removing `p`s)
selects the exact quality match if one exists and otherwise the entry
at minimal absolute distance with ties going to the first in the
descending scan; an unparseable token selects the best entry. On the
example qualities [1080, 720, 480, 360]: best → 1080, worst → 360,
half → 480, "720" → 720, "900" → 1080. -/
theorem claim_C2_quality_selection (srcs : List VideoSource) (h : srcs ≠ []) :
    ((srcs.filter (fun s => s.format = "mp4") ≠ [] →
        mp4Select srcs = srcs.filter (fun s => s.format = "mp4")) ∧
      (srcs.filter (fun s => s.format = "mp4") = [] → mp4Select srcs = srcs)) ∧
    List.Pairwise (fun a b => b.quality ≤ a.quality)
      (sortByQualityDesc (mp4Select srcs)) ∧
    (∀ q : Nat,
      (sortByQualityDesc (mp4Select srcs)).filter (fun s => s.quality == q) =
        (mp4Select srcs).filter (fun s => s.quality == q)) ∧
    get_video_url_from srcs "best" =
      (sortByQualityDesc (mp4Select srcs)).head?.map (fun s => s.url) ∧
    get_video_url_from srcs "worst" =
      (sortByQualityDesc (mp4Select srcs)).getLast?.map (fun s => s.url) ∧
    get_video_url_from srcs "half" =
      ((sortByQualityDesc (mp4Select srcs)).get?
        ((sortByQualityDesc (mp4Select srcs)).length / 2)).map (fun s => s.url) ∧
    (∀ tok t, tok ≠ "best" → tok ≠ "worst" → tok ≠ "half" →
      pyIntE (pyRemoveChar 'p' tok) = .ok t →
      get_video_url_from srcs tok =
        (match (sortByQualityDesc (mp4Select srcs)).find?
            (fun s => (s.quality : Int) = t) with
        | some s => some s.url
        | none =>
          (pyMinBy (fun s => ((s.quality : Int) - t).natAbs)
            (sortByQualityDesc (mp4Select srcs))).map (fun s => s.url))) ∧
    (∀ tok e, tok ≠ "best" → tok ≠ "worst" → tok ≠ "half" →
      pyIntE (pyRemoveChar 'p' tok) = .error e →
      get_video_url_from srcs tok =
        (sortByQualityDesc (mp4Select srcs)).head?.map (fun s => s.url)) ∧
    (get_video_url_from C2_example "best" = some "u1080" ∧
      get_video_url_from C2_example "worst" = some "u360" ∧
      get_video_url_from C2_example "half" = some "u480" ∧
      get_video_url_from C2_example "720" = some "u720" ∧
      get_video_url_from C2_example "900" = some "u1080") := by
  refine ⟨⟨?_, ?_⟩, pairwise_sortByQualityDesc _,
    (fun q => filter_sortByQualityDesc q _), ?_, ?_, ?_, ?_, ?_, ?_⟩
  · intro hne
    simp [mp4Select, List.isEmpty_eq_false.mpr hne]
  · intro heq
    simp [mp4Select, heq]
  · rw [get_video_url_from_eq srcs "best" h, if_pos rfl]
  · rw [get_video_url_from_eq srcs "worst" h, if_neg (by decide), if_pos rfl]
  · rw [get_video_url_from_eq srcs "half" h, if_neg (by decide),
      if_neg (by decide), if_pos rfl]
  · intro tok t h1 h2 h3 hpi
    rw [get_video_url_from_eq srcs tok h, if_neg h1, if_neg h2, if_neg h3, hpi]
  · intro tok e h1 h2 h3 hpi
    rw [get_video_url_from_eq srcs tok h, if_neg h1, if_neg h2, if_neg h3, hpi]
  · exact ⟨by decide, by decide, by decide, by decide, by decide⟩

/-- Witness for C2 at the specification's example list. -/
theorem claim_C2_quality_selection_witness :
    get_video_url_from C2_example "best" =
      (sortByQualityDesc (mp4Select C2_example)).head?.map (fun s => s.url) :=
  (claim_C2_quality_selection C2_example (by decide)).2.2.2.1

/-- C10: whenever the discovered media-source list of a record's
content is non-empty, `get_video_url` returns (for every token
whatsoever) the url of one of the discovered sources; it never yields
the absent value, and no selection failure (such as the declared
`QualityNotAvailable`) can arise. -/
theorem claim_C10_get_video_url_total (c : String) (q : String)
    (h : extract_video_sources c ≠ []) :
    ∃ s, s ∈ extract_video_sources c ∧ get_video_url c q = some s.url :=
  get_video_url_from_mem (extract_video_sources c) q h

/-- Witness for C10 at concrete content and an arbitrary junk token. -/
theorem claim_C10_get_video_url_total_witness :
    ∃ s, s ∈ extract_video_sources C10_content ∧
      get_video_url C10_content "xyz" = some s.url :=
  claim_C10_get_video_url_total C10_content "xyz" (by decide)

/-! ## Deduplication in `_extract_video_sources` (C5) -/

theorem nodup_appendIfNewUrl {acc : List VideoSource} {s : VideoSource}
    (h : (acc.map (fun t => t.url)).Nodup) :
    ((appendIfNewUrl acc s).map (fun t => t.url)).Nodup := by
  unfold appendIfNewUrl
  split
  · exact h
  · rename_i hany
    rw [List.map_append, List.nodup_append]
    refine ⟨h, List.nodup_singleton _, ?_⟩
    intro u hu hu2
    simp only [List.map_cons, List.map_nil, List.mem_singleton] at hu2
    subst hu2
    obtain ⟨t, ht, htu⟩ := List.mem_map.mp hu
    exact hany (List.any_eq_true.mpr ⟨t, ht, by simp [htu]⟩)

theorem nodup_foldl_of_step {β : Type}
    (step : List VideoSource → β → List VideoSource)
    (hstep : ∀ acc b, ((acc.map (fun t => t.url)).Nodup) →
      (((step acc b).map (fun t => t.url)).Nodup)) :
    ∀ (items : List β) (acc : List VideoSource),
      ((acc.map (fun t => t.url)).Nodup) →
      (((items.foldl step acc).map (fun t => t.url)).Nodup) := by
  intro items
  induction items with
  | nil => intro acc h; exact h
  | cons b bs ih =>
    intro acc h
    exact ih (step acc b) (hstep acc b h)

/-- C5 (amended): every pass after the `<source>`-tag pass, and the
final JSON-LD `contentUrl` append, only adds a url not already
present; hence the discovered list is pairwise-distinct by url
whenever the `<source>`-tag pass itself contributes no duplicate url.
(The original claim fails: the first pass appends unconditionally, so
a url occurring in two `<source>` tags is duplicated — see the
counterexample.) -/
theorem claim_C5_media_sources_dedup (c : String)
    (h : (rFindAllGrp1 REGEX_VIDEO_SOURCE c).Nodup) :
    ((extract_video_sources c).map (fun s => s.url)).Nodup := by
  unfold extract_video_sources
  split
  · simp
  · have h1 : (((rFindAllGrp1 REGEX_VIDEO_SOURCE c).map
        (fun u => VideoSource.mk u (detect_quality u) (detect_format u))).map
        (fun t => t.url)).Nodup := by
      rw [List.map_map,
        show ((fun t : VideoSource => t.url) ∘
            fun u => VideoSource.mk u (detect_quality u) (detect_format u)) = id
          from rfl,
        List.map_id]
      exact h
    have h2 := nodup_foldl_of_step
      (fun acc u => appendIfNewUrl acc
        { url := u, quality := detect_quality u, format := "mp4" })
      (fun acc u hn => nodup_appendIfNewUrl hn)
      (rFindAllGrp1 REGEX_VIDEO_SOURCE_MP4 c) _ h1
    have h3 := nodup_foldl_of_step
      (fun acc u => appendIfNewUrl acc
        { url := u, quality := detect_quality u, format := "m3u8" })
      (fun acc u hn => nodup_appendIfNewUrl hn)
      (rFindAllGrp1 REGEX_VIDEO_SOURCE_M3U8 c) _ h2
    have h4 := nodup_foldl_of_step
      (fun acc (m : RMatch) =>
        match (m.groups.find? (fun kv => kv.1 = 1)).map (fun kv => kv.2),
            (m.groups.find? (fun kv => kv.1 = 2)).map (fun kv => kv.2) with
        | some u, some f => appendIfNewUrl acc
          { url := u, quality := detect_quality u, format := pyLower f }
        | _, _ => acc)
      (fun acc m hn => by
        rcases hg1 : (m.groups.find? (fun kv => kv.1 = 1)).map (fun kv => kv.2)
          with _ | u
        · simpa [hg1] using hn
        · rcases hg2 : (m.groups.find? (fun kv => kv.1 = 2)).map (fun kv => kv.2)
            with _ | f
          · simpa [hg1, hg2] using hn
          · simpa [hg1, hg2] using nodup_appendIfNewUrl hn)
      (rFindIter REGEX_VIDEO_SOURCE_JS c) _ h3
    rcases hcu : dictLookup (parse_json_ld c) "contentUrl" with _ | v
    · simpa [hcu] using h4
    · cases v <;> simp [hcu] <;> first
        | exact h4
        | exact nodup_appendIfNewUrl h4

/-- Witness for the amended C5. -/
theorem claim_C5_media_sources_dedup_witness :
    ((extract_video_sources C5_ok_content).map (fun s => s.url)).Nodup :=
  claim_C5_media_sources_dedup C5_ok_content (by decide)

/-- Counterexample to C5 as stated: a url occurring in two identical
`<source>` tags appears twice in the discovered list. -/
theorem claim_C5_counterexample :
    (extract_video_sources C5_dup_content).map (fun s => s.url) =
      ["/v/720p.mp4", "/v/720p.mp4"] ∧
    ¬ ((extract_video_sources C5_dup_content).map (fun s => s.url)).Nodup := by
  constructor
  · decide
  · decide

/-! ## `_parse_search_results` (C8) -/

theorem searchStep1_spec (acc : SearchAcc) (id : String) :
    searchStep1 acc id = acc ∨
      (id ∉ acc.seen ∧
        (¬ (pyStartsWith id "css" ∨ pyStartsWith id "js" ∨
          pyStartsWith id "static")) ∧
        searchStep1 acc id =
          { results := acc.results ++ [mkSearchHit id],
            seen := acc.seen ++ [id] }) := by
  unfold searchStep1
  split
  · rename_i hc
    exact Or.inr ⟨hc.2.1, hc.2.2, rfl⟩
  · exact Or.inl rfl

theorem searchStep3_spec (acc : SearchAcc) (id : String) :
    searchStep3 acc id = acc ∨
      (id ∉ acc.seen ∧ True ∧
        searchStep3 acc id =
          { results := acc.results ++ [mkSearchHit id],
            seen := acc.seen ++ [id] }) := by
  unfold searchStep3
  split
  · rename_i hc
    exact Or.inr ⟨hc.2, trivial, rfl⟩
  · exact Or.inl rfl

theorem searchStep4_spec (acc : SearchAcc) (id : String) :
    searchStep4 acc id = acc ∨
      (id ∉ acc.seen ∧ id.length > 2 ∧
        searchStep4 acc id =
          { results := acc.results ++ [mkSearchHit id],
            seen := acc.seen ++ [id] }) := by
  unfold searchStep4
  split
  · rename_i hc
    exact Or.inr ⟨hc.2.1, hc.2.2, rfl⟩
  · exact Or.inl rfl

theorem searchInv_foldl {Q : String → Prop}
    {step : SearchAcc → String → SearchAcc}
    (hstep : ∀ acc id, step acc id = acc ∨
      (id ∉ acc.seen ∧ Q id ∧
        step acc id =
          { results := acc.results ++ [mkSearchHit id],
            seen := acc.seen ++ [id] })) :
    ∀ (items : List String) (acc : SearchAcc),
      searchInv Q acc → searchInv Q (items.foldl step acc) := by
  intro items
  induction items with
  | nil => exact fun acc h => h
  | cons b bs ih =>
    intro acc h
    apply ih
    rcases hstep acc b with heq | ⟨hnot, hq, heq⟩
    · rwa [heq]
    · rw [heq]
      obtain ⟨hseen, hnd, hall⟩ := h
      refine ⟨?_, ?_, ?_⟩
      · simp [hseen, mkSearchHit]
      · simp only [List.map_append]
        rw [List.nodup_append]
        refine ⟨hnd, by simp [mkSearchHit], ?_⟩
        intro x hx hx2
        simp only [mkSearchHit, List.map_cons, List.map_nil,
          List.mem_singleton] at hx2
        subst hx2
        exact hnot (hseen ▸ hx)
      · intro hh hmem
        rcases List.mem_append.mp hmem with hold | hnew
        · exact hall hh hold
        · rw [List.mem_singleton.mp hnew]
          exact ⟨rfl, rfl, hq⟩

theorem searchInv_empty (Q : String → Prop) :
    searchInv Q { results := [], seen := [] } :=
  ⟨rfl, List.nodup_nil, by intro h hm; cases hm⟩

/-- C8: the search-result builder applies its three strategies in
strict priority, stopping at the first that yields a hit; the output
is the chosen strategy's hits in discovery order capped at 20, with
pairwise-distinct ids, synthesized urls `root + id + "/"`, empty
thumbnails; strategy 1 never emits css/js/static-prefixed asset ids
and strategy 3 only ids of length > 2. -/
theorem claim_C8_search_results (c : String) :
    (parse_search_results c).length ≤ 20 ∧
    ((parse_search_results c).map (fun h => h.video_id)).Nodup ∧
    (∀ hit ∈ parse_search_results c,
      hit.url = ROOT_URL ++ hit.video_id ++ "/" ∧ hit.thumbnail = "") ∧
    parse_search_results c =
      (if searchStrategy1 c ≠ [] then searchStrategy1 c
        else if searchStrategy3 c ≠ [] then searchStrategy3 c
        else searchStrategy4 c).take 20 ∧
    (∀ hit ∈ searchStrategy1 c,
      ¬ (pyStartsWith hit.video_id "css" ∨ pyStartsWith hit.video_id "js" ∨
        pyStartsWith hit.video_id "static")) ∧
    (∀ hit ∈ searchStrategy4 c, hit.video_id.length > 2) := by
  have hinv1 := searchInv_foldl searchStep1_spec (rFindAllGrp1 ROOM_PATTERN c)
    { results := [], seen := [] } (searchInv_empty _)
  have hinv3 := searchInv_foldl searchStep3_spec
    (rFindAllGrp1 USERNAME_PATTERN c)
    { results := [], seen := [] } (searchInv_empty _)
  have hinv4 := searchInv_foldl searchStep4_spec
    (rFindAllGrp1 JSON_ROOM_PATTERN c)
    { results := [], seen := [] } (searchInv_empty _)
  have hpriority : parse_search_results c =
      (if searchStrategy1 c ≠ [] then searchStrategy1 c
        else if searchStrategy3 c ≠ [] then searchStrategy3 c
        else searchStrategy4 c).take 20 := by
    have hstr1 : searchStrategy1 c = ((rFindAllGrp1 ROOM_PATTERN c).foldl
        searchStep1 { results := [], seen := [] }).results := rfl
    have hstr3 : searchStrategy3 c = ((rFindAllGrp1 USERNAME_PATTERN c).foldl
        searchStep3 { results := [], seen := [] }).results := rfl
    have hstr4 : searchStrategy4 c = ((rFindAllGrp1 JSON_ROOM_PATTERN c).foldl
        searchStep4 { results := [], seen := [] }).results := rfl
    simp only [parse_search_results]
    rw [hstr1, hstr3, hstr4]
    rcases hf1 : (rFindAllGrp1 ROOM_PATTERN c).foldl searchStep1
        { results := [], seen := [] } with ⟨res1, seen1⟩
    rw [hf1] at hinv1
    dsimp only
    by_cases hres1 : res1 = []
    · subst hres1
      have hseen1 : seen1 = [] := by simpa using hinv1.1
      subst hseen1
      rw [if_pos (show (List.isEmpty ([] : List SearchHit)) = true from rfl),
        if_neg (show ¬ ([] : List SearchHit) ≠ [] from fun hc => hc rfl)]
      rcases hf3 : (rFindAllGrp1 USERNAME_PATTERN c).foldl searchStep3
          { results := [], seen := [] } with ⟨res3, seen3⟩
      rw [hf3] at hinv3
      dsimp only
      by_cases hres3 : res3 = []
      · subst hres3
        have hseen3 : seen3 = [] := by simpa using hinv3.1
        subst hseen3
        rw [if_pos (show (List.isEmpty ([] : List SearchHit)) = true from rfl),
          if_neg (show ¬ ([] : List SearchHit) ≠ [] from fun hc => hc rfl)]
      · rw [if_neg (fun hc => hres3 (List.isEmpty_iff.mp hc)), if_pos hres3]
    · rw [if_neg (fun hc => hres1 (List.isEmpty_iff.mp hc))]
      dsimp only
      rw [if_neg (fun hc => hres1 (List.isEmpty_iff.mp hc)), if_pos hres1]
  have hchosen : ((if searchStrategy1 c ≠ [] then searchStrategy1 c
      else if searchStrategy3 c ≠ [] then searchStrategy3 c
      else searchStrategy4 c).map (fun h => h.video_id)).Nodup ∧
      ∀ hit ∈ (if searchStrategy1 c ≠ [] then searchStrategy1 c
        else if searchStrategy3 c ≠ [] then searchStrategy3 c
        else searchStrategy4 c),
        hit.url = ROOT_URL ++ hit.video_id ++ "/" ∧ hit.thumbnail = "" := by
    split_ifs
    · exact ⟨hinv1.2.1, fun hit hm => ⟨(hinv1.2.2 hit hm).1, (hinv1.2.2 hit hm).2.1⟩⟩
    · exact ⟨hinv3.2.1, fun hit hm => ⟨(hinv3.2.2 hit hm).1, (hinv3.2.2 hit hm).2.1⟩⟩
    · exact ⟨hinv4.2.1, fun hit hm => ⟨(hinv4.2.2 hit hm).1, (hinv4.2.2 hit hm).2.1⟩⟩
  refine ⟨?_, ?_, ?_, hpriority, ?_, ?_⟩
  · rw [hpriority, List.length_take]
    exact min_le_left _ _
  · rw [hpriority, List.map_take]
    exact (List.take_sublist _ _).nodup hchosen.1
  · intro hit hmem
    rw [hpriority] at hmem
    exact hchosen.2 hit ((List.take_sublist _ _).subset hmem)
  · intro hit hmem
    exact (hinv1.2.2 hit hmem).2.2
  · intro hit hmem
    exact (hinv4.2.2 hit hmem).2.2

/-- Witness for C8 at a concrete listing body. -/
theorem claim_C8_search_results_witness :
    parse_search_results C8_content =
      (if searchStrategy1 C8_content ≠ [] then searchStrategy1 C8_content
        else if searchStrategy3 C8_content ≠ [] then searchStrategy3 C8_content
        else searchStrategy4 C8_content).take 20 :=
  (claim_C8_search_results C8_content).2.2.2.1

/-! ## Totality of the numeric accessors (C7) -/

theorem digit_not_space {c : Char} (h : pyIsDigitChar c = true) :
    pyIsSpace c = false := by
  have h' : '0' ≤ c ∧ c ≤ '9' := by simpa [pyIsDigitChar] using h
  have : ¬ (c = ' ' ∨ c = '\t' ∨ c = '\n' ∨ c = '\r' ∨ c = '\x0b' ∨ c = '\x0c') := by
    rintro (rfl | rfl | rfl | rfl | rfl | rfl) <;>
      exact absurd h' (by decide)
  simpa [pyIsSpace] using this

theorem dropWhile_eq_self_of {α : Type} (p : α → Bool) (l : List α)
    (h : ∀ c ∈ l, p c = false) : l.dropWhile p = l := by
  cases l with
  | nil => rfl
  | cons x xs =>
    rw [List.dropWhile_cons, h x (by simp)]
    simp

theorem pyIntDigits_digits (cs : List Char) (hne : cs ≠ [])
    (hall : ∀ c ∈ cs, pyIsDigitChar c = true) : pyIntDigits cs = some cs := by
  induction cs with
  | nil => exact absurd rfl hne
  | cons c rest ih =>
    cases rest with
    | nil => simp [pyIntDigits, hall c (by simp)]
    | cons c' rest' =>
      have hc : pyIsDigitChar c = true := hall c (by simp)
      have hc' : pyIsDigitChar c' = true := hall c' (by simp)
      have hrec : pyIntDigits (c' :: rest') = some (c' :: rest') :=
        ih (by simp) (fun x hx => hall x (by simp [hx]))
      have hnu : c' ≠ '_' := by
        intro hu
        rw [hu] at hc'
        exact absurd hc' (by decide)
      unfold pyIntDigits
      split
      · rename_i heq
        exact absurd heq (by simp)
      · rename_i c₀ heq
        injection heq with h1 h2
        exact absurd h2 (by simp)
      · rename_i c₀ cs' heq
        injection heq with h1 h2
        injection h2 with h3 h4
        exact absurd h3 hnu
      · rename_i c₀ cs₀ heq
        injection heq with h1 h2
        subst h1
        subst h2
        rw [hc, hrec]
        simp

theorem pyIntE_digits (s : String) (h : pyIsDigitStr s = true) :
    ∃ n, pyIntE s = .ok n := by
  have hne : ¬ s.data.isEmpty ∧ s.data.all pyIsDigitChar := by
    simpa [pyIsDigitStr] using h
  have hnil : s.data ≠ [] := by
    intro hx
    rw [hx] at hne
    exact hne.1 rfl
  have hall : ∀ c ∈ s.data, pyIsDigitChar c = true :=
    fun c hc => List.all_eq_true.mp hne.2 c hc
  have hstrip : pyStripList s.data = s.data := by
    unfold pyStripList
    rw [dropWhile_eq_self_of _ _ (fun c hc => digit_not_space (hall c hc))]
    rw [dropWhile_eq_self_of _ _
      (fun c hc => digit_not_space (hall c (List.mem_reverse.mp hc)))]
    exact List.reverse_reverse _
  unfold pyIntE
  rw [hstrip]
  cases hd : s.data with
  | nil => exact absurd hd hnil
  | cons c rest =>
    have hc : pyIsDigitChar c = true := hall c (by rw [hd]; simp)
    have hdall : ∀ x ∈ c :: rest, pyIsDigitChar x = true := by
      rw [← hd]
      exact hall
    have hdig := pyIntDigits_digits (c :: rest) (by simp) hdall
    split
    · rename_i heq
      injection heq with h1 _
      rw [h1] at hc
      exact absurd hc (by decide)
    · rename_i heq
      injection heq with h1 _
      rw [h1] at hc
      exact absurd hc (by decide)
    · rw [hdig]
      exact ⟨_, rfl⟩

theorem viewsJsonStep_ok (c : String) : ∃ v, viewsJsonStep c = .ok v := by
  unfold viewsJsonStep
  repeat' first | exact ⟨_, rfl⟩ | split

theorem viewsF_ok (c : String) : ∃ v, viewsF c = .ok v := by
  unfold viewsF
  split
  · exact ⟨none, rfl⟩
  cases hm : rSearchGrp REGEX_VIDEO_VIEWS 1 c with
  | none => exact viewsJsonStep_ok c
  | some g =>
    dsimp only
    split
    · rename_i hguard
      obtain ⟨n, hn⟩ := pyIntE_digits _ hguard.2
      rw [hn]
      exact ⟨some n, rfl⟩
    · exact viewsJsonStep_ok c

theorem ratingF_ok (c : String) : ∃ v, ratingF c = .ok v := by
  unfold ratingF ratingJsonStep
  repeat' first | exact ⟨_, rfl⟩ | split | dsimp only

theorem likesF_ok (c : String) : ∃ v, likesF c = .ok v := by
  unfold likesF
  repeat' first | exact ⟨_, rfl⟩ | split | dsimp only

theorem followersLoop_ok (c : String) (ps : List RPat) :
    ∃ v, followersLoop c ps = .ok v := by
  induction ps with
  | nil => exact ⟨none, rfl⟩
  | cons p ps ih =>
    unfold followersLoop
    repeat' first | exact ⟨_, rfl⟩ | exact ih | split

theorem followersF_ok (c : String) : ∃ v, followersF c = .ok v := by
  unfold followersF
  split
  · exact ⟨none, rfl⟩
  · exact followersLoop_ok c _

theorem ageLoop_ok (c : String) (ps : List RPat) :
    ∃ v, ageLoop c ps = .ok v := by
  induction ps with
  | nil => exact ⟨none, rfl⟩
  | cons p ps ih =>
    unfold ageLoop
    repeat' first | exact ⟨_, rfl⟩ | exact ih | split

theorem ageF_ok (c : String) : ∃ v, ageF c = .ok v := by
  unfold ageF
  split
  · exact ⟨none, rfl⟩
  · exact ageLoop_ok c _

theorem durationF_ok (c : String) : ∃ v, durationF c = .ok v := by
  unfold durationF
  repeat' first | exact ⟨_, rfl⟩ | split | dsimp only

theorem duration_formattedF_ok (c : String) :
    ∃ v, duration_formattedF c = .ok v := by
  obtain ⟨v, hv⟩ := durationF_ok c
  unfold duration_formattedF
  rw [hv]
  cases v with
  | none => exact ⟨none, rfl⟩
  | some d =>
    dsimp only
    split
    · exact ⟨_, rfl⟩
    · exact ⟨_, rfl⟩

/-- C7: every numeric derived-field accessor is total on every raw
content: a failed pattern match or failed conversion is never
propagated — `views` guards its bare `int()` with `isdigit`, every
other conversion sits in a `try/except` that falls through to the next
pattern or the JSON-LD fallback, and exhausted strategies yield the
absent value. (The string accessors contain no conversion and are
Option-valued by construction, e.g. `titleF`.) -/
theorem claim_C7_accessor_totality (c : String) :
    (∃ v, viewsF c = .ok v) ∧ (∃ v, ratingF c = .ok v) ∧
    (∃ v, likesF c = .ok v) ∧ (∃ v, followersF c = .ok v) ∧
    (∃ v, ageF c = .ok v) ∧ (∃ v, durationF c = .ok v) ∧
    (∃ v, duration_formattedF c = .ok v) :=
  ⟨viewsF_ok c, ratingF_ok c, likesF_ok c, followersF_ok c, ageF_ok c,
    durationF_ok c, duration_formattedF_ok c⟩

/-! ## Cache invalidation on reload (C1) -/

/-- C1 (code bug): after loading content A and reading `title` (which
caches it under the `__dict__` key `"title"`), reloading with content
B and reading `title` again still returns the value computed from A —
`set_html_content` deletes only keys prefixed `"_cached_"`, which
`functools.cached_property` never uses, so the reload fails to
invalidate the cache and the stale value differs from the value
computed fresh from B. -/
theorem claim_C1_stale_cache_after_reload :
    (readTitle (set_html_content (initVideo "1") C1_contentA)).1 =
      some (.jstr "First") ∧
    (readTitle (set_html_content
        (readTitle (set_html_content (initVideo "1") C1_contentA)).2
        C1_contentB)).1 = some (.jstr "First") ∧
    titleF (pyUnescape C1_contentB) = some (.jstr "Second") ∧
    (readTitle (set_html_content
        (readTitle (set_html_content (initVideo "1") C1_contentA)).2
        C1_contentB)).1 ≠ titleF (pyUnescape C1_contentB) := by
  refine ⟨rfl, rfl, rfl, ?_⟩
  intro h
  rw [show (readTitle (set_html_content
        (readTitle (set_html_content (initVideo "1") C1_contentA)).2
        C1_contentB)).1 = some (JsonValue.jstr "First") from rfl,
    show titleF (pyUnescape C1_contentB) = some (JsonValue.jstr "Second")
      from rfl] at h
  injection h with h1
  injection h1 with h2
  exact absurd h2 (by decide)

/-! ## `og:title` priority and normalization (C3) -/

/-- C3 (amended): whenever the `og:title` meta pattern matches, the
title is exactly the captured value, whitespace-stripped and
HTML-unescaped, with no `" - Site"` suffix stripping (that only
happens in the `<title>` fallback), regardless of any `<title>` tag or
JSON-LD `name` in the content. -/
theorem claim_C3_og_title_verbatim (c : String) (g : String)
    (h : rSearchGrp REGEX_VIDEO_TITLE_META 1 c = some g) :
    titleF c = some (.jstr (pyUnescape (pyStrip g))) := by
  have hc : c ≠ "" := by
    intro hc
    rw [hc] at h
    rw [show rSearchGrp REGEX_VIDEO_TITLE_META 1 "" = none from rfl] at h
    exact Option.noConfusion h
  unfold titleF
  rw [if_neg hc, h]

set_option maxRecDepth 10000 in
/-- Witness for C3: the og:title value wins over `<title>` and JSON-LD. -/
theorem claim_C3_og_title_verbatim_witness :
    titleF C3_priority_content = some (.jstr (pyUnescape (pyStrip "OgWins"))) :=
  claim_C3_og_title_verbatim C3_priority_content "OgWins" (by rfl)

/-- Counterexample to C3 as stated: the og:title path performs no
suffix stripping, so the title keeps the `" - XView"` suffix instead
of equalling the suffix-stripped value the claim predicts. -/
theorem claim_C3_counterexample :
    rSearchGrp REGEX_VIDEO_TITLE_META 1 C3_suffix_content =
      some "My Video - XView" ∧
    titleF C3_suffix_content = some (.jstr "My Video - XView") ∧
    rsplitOnceBefore " - " "My Video - XView" = "My Video" ∧
    titleF C3_suffix_content ≠ some (.jstr "My Video") := by
  refine ⟨rfl, rfl, rfl, ?_⟩
  intro h
  rw [show titleF C3_suffix_content = some (JsonValue.jstr "My Video - XView")
    from rfl] at h
  injection h with h1
  injection h1 with h2
  exact absurd h2 (by decide)

/-! ## Short-body acceptance in `Client.get_video` (C4) -/

/-- C4 (code bug): a successful fetch whose body is non-empty but at
or below the 1000-character minimum is still accepted — the loop
stores the body before the size check and the post-loop guard only
rejects `None`/empty content, so `get_video` returns a record loaded
with the short body instead of raising the last failure or
`VideoNotFound`. -/
theorem claim_C4_short_body_accepted :
    C4_short_body.length ≤ 1000 ∧ C4_short_body ≠ "" ∧
    get_video C4_oracle "123" =
      .ok { videoId := "123", htmlContent := some (pyUnescape C4_short_body),
            jsonLdData := none, videoSources := none, cache := [] } :=
  ⟨by decide, by decide, rfl⟩

/-! ## ISO-8601 durations from JSON-LD (C6) -/

theorem durationF_json_only (c : String) (ds : String)
    (h1 : rSearchGrp REGEX_VIDEO_DURATION 1 c = none)
    (h2 : rSearchGrp REGEX_VIDEO_DURATION_ALT 1 c = none)
    (h3 : dictLookup (parse_json_ld c) "duration" = some (.jstr ds))
    (h4 : pyStartsWith ds "PT" = true) :
    durationF c = .ok (some (parse_iso_duration ds)) := by
  have hc : c ≠ "" := by
    intro hc
    rw [hc] at h3
    rw [show parse_json_ld "" = [] from rfl] at h3
    exact Option.noConfusion h3
  simp [durationF, hc, h1, h2, h3, h4]

/-- C6: when the duration is expressed only as the JSON-LD ISO-8601
string (no meta tag, no loose duration pattern), `PT1H30M45S` gives
5445 seconds formatted `"1:30:45"` and `PT5M9S` gives 309 seconds
formatted `"5:09"` — hours omitted when zero, minutes and seconds
zero-padded to two digits only after a leading larger unit. -/
theorem claim_C6_iso_duration :
    (∀ c, rSearchGrp REGEX_VIDEO_DURATION 1 c = none →
      rSearchGrp REGEX_VIDEO_DURATION_ALT 1 c = none →
      dictLookup (parse_json_ld c) "duration" = some (.jstr "PT1H30M45S") →
      durationF c = .ok (some 5445) ∧
      duration_formattedF c = .ok (some "1:30:45")) ∧
    (∀ c, rSearchGrp REGEX_VIDEO_DURATION 1 c = none →
      rSearchGrp REGEX_VIDEO_DURATION_ALT 1 c = none →
      dictLookup (parse_json_ld c) "duration" = some (.jstr "PT5M9S") →
      durationF c = .ok (some 309) ∧
      duration_formattedF c = .ok (some "5:09")) := by
  constructor
  · intro c h1 h2 h3
    have hd := durationF_json_only c "PT1H30M45S" h1 h2 h3 (by decide)
    rw [show parse_iso_duration "PT1H30M45S" = 5445 from by decide] at hd
    refine ⟨hd, ?_⟩
    unfold duration_formattedF
    rw [hd]
    rfl
  · intro c h1 h2 h3
    have hd := durationF_json_only c "PT5M9S" h1 h2 h3 (by decide)
    rw [show parse_iso_duration "PT5M9S" = 309 from by decide] at hd
    refine ⟨hd, ?_⟩
    unfold duration_formattedF
    rw [hd]
    rfl

/-- Witness for C6 at concrete JSON-LD-only contents. -/
theorem claim_C6_iso_duration_witness :
    (durationF C6_content1 = .ok (some 5445) ∧
      duration_formattedF C6_content1 = .ok (some "1:30:45")) ∧
    (durationF C6_content2 = .ok (some 309) ∧
      duration_formattedF C6_content2 = .ok (some "5:09")) :=
  ⟨claim_C6_iso_duration.1 C6_content1 rfl rfl rfl,
    claim_C6_iso_duration.2 C6_content2 rfl rfl rfl⟩

/-! ## Identifier round-trip (C9) -/

theorem not_startsWith_http {s : String} (hne : s.data ≠ [])
    (hall : ∀ c ∈ s.data, pyIsDigitChar c = true) :
    ¬ (pyStartsWith s "http://" = true ∨ pyStartsWith s "https://" = true) := by
  have key : ∀ rest : List Char,
      ¬ ('h' :: rest).isPrefixOf s.data = true := by
    intro rest hp
    cases hd : s.data with
    | nil => exact hne hd
    | cons c cs =>
      rw [hd, List.isPrefixOf_cons₂] at hp
      have hc : pyIsDigitChar c = true := hall c (by rw [hd]; simp)
      have hch : 'h' = c := by
        have := (Bool.and_eq_true _ _).mp hp
        exact eq_of_beq this.1
      rw [← hch] at hc
      exact absurd hc (by decide)
  rintro (hp | hp)
  · exact key _ hp
  · exact key _ hp

/-- C9: resolving a pure digit string — directly (a non-URL-shaped
input is used as the id unchanged) or through `_extract_video_id` —
yields a record whose `video_id` is that string unchanged. -/
theorem claim_C9_id_roundtrip (s : String) (h1 : s ≠ "")
    (h2 : s.data.all pyIsDigitChar = true) :
    extract_video_id s = .ok s ∧
    ∀ (fetch : String → Except XErr String) (v : VideoState),
      get_video fetch s = .ok v → v.videoId = s := by
  have hdata : s.data ≠ [] := by
    intro hd
    apply h1
    cases s with
    | mk data =>
      rw [show String.mk data = ⟨data⟩ from rfl]
      rw [show (⟨data⟩ : String).data = data from rfl] at hd
      rw [hd]
  have hall : ∀ c ∈ s.data, pyIsDigitChar c = true :=
    fun c hc => List.all_eq_true.mp h2 c hc
  have hpre := not_startsWith_http hdata hall
  have hdig : pyIsDigitStr s = true := by
    simp only [pyIsDigitStr]
    have h1' : s.data.isEmpty = false := by
      cases hd : s.data with
      | nil => exact absurd hd hdata
      | cons c cs => rfl
    simp [h1', h2]
  constructor
  · unfold extract_video_id
    rw [if_neg hpre, if_pos hdig]
  · intro fetch v hv
    unfold get_video at hv
    rw [if_neg hpre] at hv
    dsimp only at hv
    split at hv
    · split at hv
      · exact Except.noConfusion hv
      · exact Except.noConfusion hv
    · split at hv
      · split at hv
        · exact Except.noConfusion hv
        · exact Except.noConfusion hv
      · injection hv with hv'
        rw [← hv']
        rfl

/-- Witness for C9 at a concrete digit string. -/
theorem claim_C9_id_roundtrip_witness :
    extract_video_id "12345" = Except.ok "12345" :=
  (claim_C9_id_roundtrip "12345" (by decide) (by decide)).1

end XView
